import Mathlib

/-! Slack bot adapter: request parsing and usage text

A shallow embedding of `bot/slack/slack.go` (`usageInstructions`, `parseQuery`, `Parse`)
together with the small parts of the Go standard library that the file calls.

Conventions of the embedding

* A Go `string` is a Lean `String` (a sequence of Unicode code points).
* In `SendResponse`, whose argument `encoding/json` encodes byte by byte, a Go `string` is
  the list of its bytes (`List Byte`), valid UTF-8 or not.
* Where releases of `encoding/json` differ in what they write, the release is an explicit
  argument (`EncoderRelease`).
* A Go `error` is an `Option String`: `none` is `nil`, `some m` is an error whose
  `Error()` text is `m`.
* A Go pointer field (`*T`) is an `Option T`.
* A Go `map[string]V` is an association list searched from the front.
* The order in which `range` visits a map is not fixed by the language; it is an explicit
  argument (`RangeOrder`), a permutation of the entries of the map.
* A run-time panic (index out of range) is the result `none` of `slack.Parse`.
* Calls of the request verifier are recorded in a log that `parseQuery` and `Parse` return
  next to their Go results.
-/

namespace SlackBot

/-! ## Standard library: `unicode`, `strings` -/

/-- Go `unicode.IsSpace`: the code points with the Unicode White_Space property. -/
def isSpace (c : Char) : Bool :=
  let n := c.toNat
  (0x09 ≤ n && n ≤ 0x0D) || n == 0x20 || n == 0x85 || n == 0xA0 || n == 0x1680 ||
  (0x2000 ≤ n && n ≤ 0x200A) || n == 0x2028 || n == 0x2029 || n == 0x202F ||
  n == 0x205F || n == 0x3000

/-- The scanning loop of `strings.Fields`: `cur` is the field being read (empty between
fields); a white-space character closes the current field, any other character extends it. -/
def fieldsAux : List Char → List Char → List (List Char)
  | [], cur => if cur = [] then [] else [cur]
  | c :: cs, cur =>
    if isSpace c then
      (if cur = [] then fieldsAux cs [] else cur :: fieldsAux cs [])
    else fieldsAux cs (cur ++ [c])

/-- Go `strings.Fields`: the maximal runs of non-white-space characters of `s`, in order. -/
def Fields (s : String) : List String :=
  (fieldsAux s.data []).map String.mk

/-- The scanning loop of `strings.Split` for a one-character separator: `cur` is the
segment being read. -/
def splitAux (sep : Char) : List Char → List Char → List (List Char)
  | [], cur => [cur]
  | c :: cs, cur =>
    if c = sep then cur :: splitAux sep cs [] else splitAux sep cs (cur ++ [c])

/-- Go `strings.Split(s, sep)` for a separator of one character (the only call in the
source is `strings.Split(parts[1], ":")`). -/
def Split (s : String) (sep : Char) : List String :=
  (splitAux sep s.data []).map String.mk

/-! ## Standard library: `text/template`, the fragment used by the usage catalog -/

/-- A node of a parsed template: literal text, or the action `{{.name}}` that prints the
entry `name` of the data map. -/
inductive Node where
  | text (s : String)
  | field (name : String)
  deriving DecidableEq, Repr

/-- A parsed `text/template` template. -/
structure Template where
  nodes : List Node
  deriving DecidableEq, Repr

/-- Characters of a field name. -/
def isIdentChar (c : Char) : Bool :=
  c.isAlphanum || c == '_'

/-- The lexer and parser of `text/template` for templates made of literal text and
`{{.name}}` actions. `inAction` tells whether the scan is between `{{` and `}}`, `acc` is
the literal text or the action source read so far. Any other action, and an action that
is not closed, is an error (`none`). -/
def parseNodes : List Char → Bool → List Char → Option (List Node)
  | [], false, acc => some (if acc = [] then [] else [Node.text (String.mk acc)])
  | [], true, _ => none
  | [c], inAction, acc => parseNodes [] inAction (acc ++ [c])
  | c :: d :: rest, false, acc =>
    if c = '{' ∧ d = '{' then
      (parseNodes rest true []).map
        (fun ns => if acc = [] then ns else Node.text (String.mk acc) :: ns)
    else parseNodes (d :: rest) false (acc ++ [c])
  | c :: d :: rest, true, acc =>
    if c = '}' ∧ d = '}' then
      match acc with
      | '.' :: name =>
        if name ≠ [] ∧ name.all isIdentChar = true then
          (parseNodes rest false []).map (fun ns => Node.field (String.mk name) :: ns)
        else none
      | _ => none
    else parseNodes (d :: rest) true (acc ++ [c])

/-- Go `template.New("usage").Parse(text)`: the parsed template, or `none` on a parse
error. -/
def Template.Parse (text : String) : Option Template :=
  (parseNodes text.data false []).map Template.mk

/-- Go `(*Template).Execute(wr, data)` for a `map[string]string` data value and a
`bytes.Buffer` writer: appends the rendering to the buffer `wr`. Literal text is copied,
`{{.name}}` prints `data[name]` without any escaping (`<no value>` when the key is
missing). Returns the new buffer contents and the error (always `nil` here: a buffer write
cannot fail and the fragment has no failing action). -/
def Template.Execute (t : Template) (wr : String) (data : List (String × String)) :
    String × Option String :=
  (t.nodes.foldl
    (fun out n =>
      match n with
      | Node.text s => out ++ s
      | Node.field name => out ++ (data.lookup name).getD "<no value>")
    wr, none)

/-! ## Standard library: `net/url`, `net/http`, `io/ioutil` -/

/-- Go `url.Values`, a `map[string][]string`. -/
abbrev Values := List (String × List String)

/-- Go `url.Values.Get`: the first value associated with `key`, or `""` when there is
none. -/
def Values.Get (v : Values) (key : String) : String :=
  match v.lookup key with
  | some (x :: _) => x
  | _ => ""

/-- Go `http.Header`, a `map[string][]string`. -/
abbrev Header := List (String × List String)

/-- A request body as `ioutil.ReadAll` sees it: reading to the end delivers all the bytes
(`ok`), or fails with an error (`error`). -/
abbrev Body := Except String String

/-- Go `ioutil.ReadAll`. -/
def ReadAll (b : Body) : String × Option String :=
  match b with
  | .ok data => (data, none)
  | .error err => ("", some err)

/-- The fields of `http.Request` that the adapter reads. -/
structure Request where
  Body : Body
  Header : Header

/-- Go `url.ParseQuery`, taken as a parameter of the model: from the raw body to the
decoded form values and an error. -/
abbrev QueryDecoder := String → Values × Option String

/-! ## Package `bot`: the command value -/

namespace bot

/-- Modelled from the spec: the type declaration `bot.ListSubscriptions` (no fields). -/
structure ListSubscriptions where
  deriving DecidableEq, Repr

/-- Modelled from the spec: the type declaration `bot.UpdateSubscription`. -/
structure UpdateSubscription where
  App : String := ""
  Project : String := ""
  Trigger : String := ""
  deriving DecidableEq, Repr

/-- Modelled from the spec: the type declaration `bot.Command`; the three action fields
are pointers, `none` is `nil`. -/
structure Command where
  Service : String := ""
  Recipient : String := ""
  Subscribe : Option UpdateSubscription := none
  Unsubscribe : Option UpdateSubscription := none
  ListSubscriptions : Option ListSubscriptions := none
  deriving DecidableEq, Repr

end bot

/-! ## Package `slack` -/

/-- The function type `RequestVerifier` of the package: from the raw body and the headers
to the identity of the calling service and an error. -/
abbrev RequestVerifier := String → Header → String × Option String

/-- One recorded call of the verifier: its two arguments. -/
abbrev VerifierCall := String × Header

/-- The adapter `slack`. -/
structure slack where
  verifier : RequestVerifier

/-- `mustTemplate`: parses `text`; `template.Must` panics on a parse error, so the
absence of a parse error is an obligation `h` at every use. -/
def mustTemplate (text : String) (h : (Template.Parse text).isSome = true) : Template :=
  (Template.Parse text).get h

/-- The catalog `commandsHelp` of usage templates, by command name. -/
def commandsHelp : List (String × Template) :=
  [ ("list-subscriptions",
      mustTemplate ("*List your subscriptions*:\n" ++
        "```\x7b\x7b.cmd\x7d\x7d list-subscriptions```") (by rfl)),
    ("subscribe",
      mustTemplate ("*Subscribe current channel*:\n" ++
        "```\x7b\x7b.cmd\x7d\x7d subscribe <my-app> <optional-trigger>\n" ++
        "\x7b\x7b.cmd\x7d\x7d subscribe proj:<my-proj> <optional-trigger>```") (by rfl)),
    ("unsubscribe",
      mustTemplate ("*Unsubscribe current channel*:\n" ++
        "```\x7b\x7b.cmd\x7d\x7d unsubscribe <my-app> <optional-trigger>\n" ++
        "\x7b\x7b.cmd\x7d\x7d unsubscribe proj:<my-proj> <optional-trigger>```") (by rfl)) ]

/-- The order in which one `range commandsHelp` loop visits the map: Go leaves it
unspecified, every entry is visited once. -/
structure RangeOrder where
  entries : List (String × Template)
  perm : entries.Perm commandsHelp

/-- The loop `for _, tmpl := range commandsHelp` of `usageInstructions` over the entries
still to visit: `.error e` is the early `return err.Error()`, `.ok usage` the buffer after
the loop. -/
def rangeTemplates (botCommand : String) : List (String × Template) → String →
    Except String String
  | [], usage => .ok usage
  | (_, tmpl) :: rest, usage =>
    match tmpl.Execute usage [("cmd", botCommand)] with
    | (_, some err) => .error err
    | (usage, none) => rangeTemplates botCommand rest (usage ++ "\n")

/-- `usageInstructions(query, command, err)`. -/
def usageInstructions (order : RangeOrder) (query : Values) (command : String)
    (err : Option String) : String :=
  let botCommand := if query.Get "command" ≠ "" then query.Get "command" else "/argocd"
  let usage := ""
  let usage := match err with
    | some e => usage ++ (e ++ "\n")
    | none => usage
  match commandsHelp.lookup command with
  | some tmpl =>
    match tmpl.Execute usage [("cmd", botCommand)] with
    | (_, some err) => err
    | (usage, none) => usage
  | none =>
    let usage := usage ++ (":wave: Need some help with `" ++ botCommand ++ "`?\n")
    match rangeTemplates botCommand order.entries usage with
    | .error err => err
    | .ok usage => usage

/-- `(*slack).parseQuery`: the Go results `(service, values, err)` and the log of the
verifier calls made. -/
def slack.parseQuery (decode : QueryDecoder) (s : slack) (r : Request) :
    (String × Values × Option String) × List VerifierCall :=
  match ReadAll r.Body with
  | (_, some err) => (("", [], some err), [])
  | (data, none) =>
    match s.verifier data r.Header with
    | (_, some err) =>
      (("", [], some ("failed to verify request signature: " ++ err)), [(data, r.Header)])
    | (service, none) =>
      match decode data with
      | (_, some err) => (("", [], some err), [(data, r.Header)])
      | (values, none) => ((service, values, none), [(data, r.Header)])

/-- `(*slack).Parse`: `none` is a run-time panic of an index expression, `some` carries
the Go results `(cmd, err)` and the log of the verifier calls made. -/
def slack.Parse (decode : QueryDecoder) (order : RangeOrder) (s : slack) (r : Request) :
    Option ((bot.Command × Option String) × List VerifierCall) :=
  let cmd : bot.Command := {}
  match s.parseQuery decode r with
  | ((_, _, some err), calls) => some ((cmd, some err), calls)
  | ((service, query, none), calls) =>
    let cmd := { cmd with Service := service }
    let channel := query.Get "channel_name"
    if channel = "" then
      some ((cmd, some "request does not have channel"), calls)
    else
    let parts := Fields (query.Get "text")
    if parts.length < 1 then
      some ((cmd, some (usageInstructions order query "" none)), calls)
    else
    match parts[0]? with
    | none => none
    | some command =>
    let cmd := { cmd with Recipient := channel }
    if command = "list-subscriptions" then
      some (({ cmd with ListSubscriptions := some {} }, none), calls)
    else if command = "subscribe" ∨ command = "unsubscribe" then
      if parts.length < 2 then
        some ((cmd, some (usageInstructions order query command
          (some "at least one argument expected"))), calls)
      else
      match parts[1]? with
      | none => none
      | some name =>
      let update : bot.UpdateSubscription := {}
      let nameParts := Split name ':'
      let nameParts := if nameParts.length = 1 then ["app"] ++ nameParts else nameParts
      let finish : bot.UpdateSubscription →
          Option ((bot.Command × Option String) × List VerifierCall) := fun update =>
        let withTrigger : Option bot.UpdateSubscription :=
          if parts.length > 2 then
            match parts[2]? with
            | none => none
            | some trigger => some { update with Trigger := trigger }
          else some update
        match withTrigger with
        | none => none
        | some update =>
          if command = "subscribe" then
            some (({ cmd with Subscribe := some update }, none), calls)
          else
            some (({ cmd with Unsubscribe := some update }, none), calls)
      match nameParts[0]? with
      | none => none
      | some kind =>
        if kind = "app" then
          match nameParts[1]? with
          | none => none
          | some value => finish { update with App := value }
        else if kind = "proj" then
          match nameParts[1]? with
          | none => none
          | some value => finish { update with Project := value }
        else
          some ((cmd, some (usageInstructions order query command
            (some ("incorrect name argument: " ++ name)))), calls)
    else
      some ((cmd, some (usageInstructions order query "" none)), calls)

/-! ## Standard library: `unicode/utf8` -/

/-- A Go `byte`. Where `encoding/json` inspects a string byte by byte (in `SendResponse`),
a Go `string` is the list of its bytes; it need not be valid UTF-8. -/
abbrev Byte := Fin 256

/-- Go `byte(n)`: the conversion keeps the low eight bits. -/
def toByte (n : Nat) : Byte := Fin.ofNat n

/-- Go `utf8.RuneError`, the replacement character U+FFFD. -/
def RuneError : Nat := 0xFFFD

/-- Go `utf8.EncodeRune`: the UTF-8 encoding of the code point `r`; a surrogate or a value
above U+10FFFF is encoded as `RuneError`. Shifts and masks are written as division and
remainder. -/
def EncodeRune (r : Nat) : List Byte :=
  if r ≤ 0x7F then [toByte r]
  else if r ≤ 0x7FF then [toByte (0xC0 + r / 64), toByte (0x80 + r % 64)]
  else if 0x10FFFF < r ∨ (0xD800 ≤ r ∧ r ≤ 0xDFFF) then [0xEF, 0xBF, 0xBD]
  else if r ≤ 0xFFFF then
    [toByte (0xE0 + r / 4096), toByte (0x80 + r / 64 % 64), toByte (0x80 + r % 64)]
  else
    [toByte (0xF0 + r / 262144), toByte (0x80 + r / 4096 % 64), toByte (0x80 + r / 64 % 64),
      toByte (0x80 + r % 64)]

/-- The bytes of a string given as text: the UTF-8 encoding of its code points. -/
def bytes (s : String) : List Byte :=
  (s.data.map (fun c => EncodeRune c.toNat)).flatten

/-- Go `utf8.DecodeRuneInString`: the first code point of `s` and its width in bytes;
`(RuneError, 0)` for the empty string and `(RuneError, 1)` when the first bytes are not a
valid encoding. The table `first` and the accept ranges are written as comparisons. -/
def DecodeRune (s : List Byte) : Nat × Nat :=
  match s with
  | [] => (RuneError, 0)
  | s0 :: rest =>
    if s0.val < 0x80 then (s0.val, 1)
    else if s0.val < 0xC2 ∨ 0xF4 < s0.val then (RuneError, 1)
    else
      let sz := if s0.val < 0xE0 then 2 else if s0.val < 0xF0 then 3 else 4
      let lo := if s0.val = 0xE0 then 0xA0 else if s0.val = 0xF0 then 0x90 else 0x80
      let hi := if s0.val = 0xED then 0x9F else if s0.val = 0xF4 then 0x8F else 0xBF
      if rest.length + 1 < sz then (RuneError, 1)
      else
        match rest with
        | [] => (RuneError, 1)
        | s1 :: rest1 =>
          if s1.val < lo ∨ hi < s1.val then (RuneError, 1)
          else if sz ≤ 2 then (s0.val % 32 * 64 + s1.val % 64, 2)
          else
            match rest1 with
            | [] => (RuneError, 1)
            | s2 :: rest2 =>
              if s2.val < 0x80 ∨ 0xBF < s2.val then (RuneError, 1)
              else if sz ≤ 3 then
                (s0.val % 16 * 4096 + s1.val % 64 * 64 + s2.val % 64, 3)
              else
                match rest2 with
                | [] => (RuneError, 1)
                | s3 :: _ =>
                  if s3.val < 0x80 ∨ 0xBF < s3.val then (RuneError, 1)
                  else
                    (s0.val % 8 * 262144 + s1.val % 64 * 4096 + s2.val % 64 * 64
                      + s3.val % 64, 4)

/-- The scan of Go `utf8.ValidString` over the bytes still to read: every position decodes
to a rune other than the `(RuneError, 1)` of an invalid byte. `fuel` bounds the number of
runes. -/
def validAux : Nat → List Byte → Bool
  | _, [] => true
  | 0, _ :: _ => false
  | fuel + 1, b :: rest =>
    if (DecodeRune (b :: rest)).1 = RuneError ∧ (DecodeRune (b :: rest)).2 = 1 then false
    else validAux fuel ((b :: rest).drop (DecodeRune (b :: rest)).2)

/-- Go `utf8.ValidString`: whether `s` consists entirely of valid UTF-8-encoded runes. -/
def ValidString (s : List Byte) : Bool :=
  validAux s.length s

/-! ## Standard library: `encoding/json`, the encoder -/

/-- The two points on which the releases of `encoding/json` differ in how they write a
string: whether the control characters backspace and form feed get the two-character
escapes `\b` and `\f` (otherwise `\u0008` and `\u000c`), and whether an invalid byte is
written as the three bytes of U+FFFD (otherwise as the six characters `\ufffd`). -/
structure EncoderRelease where
  shortControl : Bool
  rawReplacement : Bool

/-- The digit `hex[n]` of `"0123456789abcdef"`. -/
def hexDigit (n : Nat) : Byte :=
  if n < 10 then toByte (0x30 + n) else toByte (0x61 + (n - 10))

/-- The table `htmlSafeSet`: the ASCII bytes written as they are, that is all from the
blank on except the double quote, `&`, `<`, `>` and the backslash. -/
def htmlSafe (b : Byte) : Bool :=
  0x20 ≤ b.val && b.val < 0x80 && b != 0x22 && b != 0x26 && b != 0x3C && b != 0x3E &&
    b != 0x5C

/-- The escape that the string encoder writes for an ASCII byte outside `htmlSafeSet`. -/
def escapeByte (rel : EncoderRelease) (b : Byte) : List Byte :=
  if b = 0x5C ∨ b = 0x22 then [0x5C, b]
  else if rel.shortControl = true ∧ b = 0x08 then [0x5C, 0x62]
  else if rel.shortControl = true ∧ b = 0x0C then [0x5C, 0x66]
  else if b = 0x0A then [0x5C, 0x6E]
  else if b = 0x0D then [0x5C, 0x72]
  else if b = 0x09 then [0x5C, 0x74]
  else [0x5C, 0x75, 0x30, 0x30, hexDigit (b.val / 16), hexDigit (b.val % 16)]

/-- What the string encoder writes for a byte that is not part of a valid encoding: the
replacement character U+FFFD, as its three bytes or as an escape. -/
def replacement (rel : EncoderRelease) : List Byte :=
  if rel.rawReplacement = true then [0xEF, 0xBF, 0xBD] else bytes "\\ufffd"

/-- The loop of the string encoder of `encoding/json` (with HTML escaping, as `Marshal`
uses it) over the bytes still to read: a safe ASCII byte is copied, another ASCII byte is
escaped, an invalid byte is replaced by U+FFFD, U+2028 and U+2029 are escaped, any other
rune is copied. `fuel` bounds the number of runes. -/
def appendBody (rel : EncoderRelease) : Nat → List Byte → List Byte
  | _, [] => []
  | 0, _ :: _ => []
  | fuel + 1, b :: rest =>
    if b.val < 0x80 then
      (if htmlSafe b then [b] else escapeByte rel b) ++ appendBody rel fuel rest
    else if (DecodeRune (b :: rest)).1 = RuneError ∧ (DecodeRune (b :: rest)).2 = 1 then
      replacement rel ++ appendBody rel fuel rest
    else if (DecodeRune (b :: rest)).1 = 0x2028 ∨ (DecodeRune (b :: rest)).1 = 0x2029 then
      bytes "\\u202" ++ [hexDigit ((DecodeRune (b :: rest)).1 % 16)] ++
        appendBody rel fuel ((b :: rest).drop (DecodeRune (b :: rest)).2)
    else
      (b :: rest).take (DecodeRune (b :: rest)).2 ++
        appendBody rel fuel ((b :: rest).drop (DecodeRune (b :: rest)).2)

/-- The string encoder of `encoding/json`: `src` as a JSON string literal. -/
def appendString (rel : EncoderRelease) (src : List Byte) : List Byte :=
  [0x22] ++ appendBody rel src.length src ++ [0x22]

/-- The string that the encoder writes in place of `src` (the documentation of
`json.Marshal`: string values are coerced to valid UTF-8, invalid bytes are replaced by
the Unicode replacement rune), over the bytes still to read. -/
def coerceAux : Nat → List Byte → List Byte
  | _, [] => []
  | 0, _ :: _ => []
  | fuel + 1, b :: rest =>
    if b.val < 0x80 then b :: coerceAux fuel rest
    else if (DecodeRune (b :: rest)).1 = RuneError ∧ (DecodeRune (b :: rest)).2 = 1 then
      [0xEF, 0xBF, 0xBD] ++ coerceAux fuel rest
    else
      (b :: rest).take (DecodeRune (b :: rest)).2 ++
        coerceAux fuel ((b :: rest).drop (DecodeRune (b :: rest)).2)

/-- The content `src` coerced to valid UTF-8: every invalid byte replaced by U+FFFD. -/
def coerceUTF8 (src : List Byte) : List Byte :=
  coerceAux src.length src

/-! ## Package `slack-go` and `net/http`: the values that `SendResponse` builds -/

/-- Modelled from the spec: the type declaration `slackclient.TextBlockObject`, with the
fields that the response shape of the spec shows (`type`, `text`); the Go field `Type` is
written `Type_`. -/
structure TextBlockObject where
  Type_ : List Byte
  Text : List Byte

/-- Modelled from the spec: the type declaration `slackclient.SectionBlock`, with the
fields that the response shape of the spec shows (`type`, and `text`, a pointer); the Go
field `Type` is written `Type_`. -/
structure SectionBlock where
  Type_ : List Byte
  Text : Option TextBlockObject

/-- The constant `slackclient.MBTSection`. -/
def MBTSection : List Byte := bytes "section"

/-- Go `json.Marshal` of a `TextBlockObject`. -/
def marshalTextBlockObject (rel : EncoderRelease) (t : TextBlockObject) : List Byte :=
  bytes "\x7b\"type\":" ++ appendString rel t.Type_ ++ bytes ",\"text\":" ++
    appendString rel t.Text ++ bytes "\x7d"

/-- Go `json.Marshal` of a `SectionBlock`; a nil `Text` is left out (`omitempty`). -/
def marshalSectionBlock (rel : EncoderRelease) (b : SectionBlock) : List Byte :=
  bytes "\x7b\"type\":" ++ appendString rel b.Type_ ++
    (match b.Text with
      | some t => bytes ",\"text\":" ++ marshalTextBlockObject rel t
      | none => []) ++
    bytes "\x7d"

/-- The elements of a JSON array, separated by commas. -/
def marshalItems (rel : EncoderRelease) : List SectionBlock → List Byte
  | [] => []
  | [b] => marshalSectionBlock rel b
  | b :: rest => marshalSectionBlock rel b ++ bytes "," ++ marshalItems rel rest

/-- Go `json.Marshal(map[string]interface{}{"blocks": blocks})`: the encoded bytes and the
error, which is nil for these values. -/
def Marshal (rel : EncoderRelease) (blocks : List SectionBlock) : List Byte × Option String :=
  (bytes "\x7b\"blocks\":[" ++ marshalItems rel blocks ++ bytes "]\x7d", none)

/-- The parts of an `http.ResponseWriter` that `SendResponse` touches: the header map and
the bytes written to the body so far. -/
structure ResponseWriter where
  header : Header
  body : List Byte

/-- Go `http.Header.Set`: replaces the values of `key` by the single `value`. -/
def Header.Set (h : Header) (key value : String) : Header :=
  (key, [value]) :: h.filter (fun e => e.1 != key)

/-- `(*slack).SendResponse`, linked against the release `rel` of `encoding/json`: the
response writer after the call. -/
def slack.SendResponse (rel : EncoderRelease) (_s : slack) (content : List Byte)
    (w : ResponseWriter) : ResponseWriter :=
  let w : ResponseWriter :=
    { w with header := Header.Set w.header "Content-Type" "application/json" }
  let blocks : List SectionBlock :=
    [{ Type_ := MBTSection, Text := some { Type_ := bytes "mrkdwn", Text := content } }]
  match Marshal rel blocks with
  | (_, some err) => { w with body := w.body ++ bytes err }
  | (data, none) => { w with body := w.body ++ data }

/-! ## A JSON reader, to read back what `SendResponse` writes -/

/-- A JSON value (RFC 8259); strings are byte strings, a number is kept as its lexeme. -/
inductive JSON where
  | null
  | bool (b : Bool)
  | number (lexeme : List Byte)
  | string (s : List Byte)
  | array (items : List JSON)
  | object (members : List (List Byte × JSON))

/-- The member `key` of a JSON object. -/
def JSON.member (key : List Byte) : JSON → Option JSON
  | JSON.object members => members.lookup key
  | _ => none

/-- The element `i` of a JSON array. -/
def JSON.item (i : Nat) : JSON → Option JSON
  | JSON.array items => items[i]?
  | _ => none

/-- JSON white space: blank, tab, line feed, carriage return. -/
def isJSONSpace (b : Byte) : Bool :=
  b == 0x20 || b == 0x09 || b == 0x0A || b == 0x0D

/-- Drops leading JSON white space. -/
def skipWS : List Byte → List Byte
  | [] => []
  | b :: rest => if isJSONSpace b then skipWS rest else b :: rest

/-- The value of a hexadecimal digit. -/
def hexVal (b : Byte) : Option Nat :=
  if 0x30 ≤ b.val ∧ b.val ≤ 0x39 then some (b.val - 0x30)
  else if 0x61 ≤ b.val ∧ b.val ≤ 0x66 then some (b.val - 0x61 + 10)
  else if 0x41 ≤ b.val ∧ b.val ≤ 0x46 then some (b.val - 0x41 + 10)
  else none

/-- The value of four hexadecimal digits. -/
def hex4 (h1 h2 h3 h4 : Byte) : Option Nat :=
  match hexVal h1, hexVal h2, hexVal h3, hexVal h4 with
  | some a, some b, some c, some d => some (a * 4096 + b * 256 + c * 16 + d)
  | _, _, _, _ => none

/-- The byte that a two-character escape stands for. -/
def simpleEscape (e : Byte) : Option Byte :=
  if e = 0x22 then some 0x22
  else if e = 0x5C then some 0x5C
  else if e = 0x2F then some 0x2F
  else if e = 0x62 then some 0x08
  else if e = 0x66 then some 0x0C
  else if e = 0x6E then some 0x0A
  else if e = 0x72 then some 0x0D
  else if e = 0x74 then some 0x09
  else none

/-- Reads the rest of a JSON string literal, after its opening quote: the string it
denotes and the input after the closing quote. An escape `\uXXXX` denotes the UTF-8
encoding of the code point, two escapes that form a surrogate pair denote one code point,
a control character is not allowed. `fuel` bounds the number of characters read. -/
def unquote : Nat → List Byte → Option (List Byte × List Byte)
  | 0, _ => none
  | _ + 1, [] => none
  | fuel + 1, b :: rest =>
    if b = 0x22 then some ([], rest)
    else if b = 0x5C then
      match rest with
      | [] => none
      | e :: rest1 =>
        if e = 0x75 then
          match rest1 with
          | h1 :: h2 :: h3 :: h4 :: rest2 =>
            match hex4 h1 h2 h3 h4 with
            | none => none
            | some hi =>
              if 0xD800 ≤ hi ∧ hi ≤ 0xDBFF then
                match rest2 with
                | b1 :: b2 :: l1 :: l2 :: l3 :: l4 :: rest3 =>
                  match hex4 l1 l2 l3 l4 with
                  | some lo =>
                    if b1 = 0x5C ∧ b2 = 0x75 ∧ 0xDC00 ≤ lo ∧ lo ≤ 0xDFFF then
                      (unquote fuel rest3).map (fun p =>
                        (EncodeRune (0x10000 + (hi - 0xD800) * 1024 + (lo - 0xDC00)) ++ p.1,
                          p.2))
                    else (unquote fuel rest2).map (fun p => (EncodeRune hi ++ p.1, p.2))
                  | none => (unquote fuel rest2).map (fun p => (EncodeRune hi ++ p.1, p.2))
                | _ => (unquote fuel rest2).map (fun p => (EncodeRune hi ++ p.1, p.2))
              else (unquote fuel rest2).map (fun p => (EncodeRune hi ++ p.1, p.2))
          | _ => none
        else
          match simpleEscape e with
          | none => none
          | some x => (unquote fuel rest1).map (fun p => (x :: p.1, p.2))
    else if b.val < 0x20 then none
    else (unquote fuel rest).map (fun p => (b :: p.1, p.2))

/-- The characters of a number. -/
def isNumberByte (b : Byte) : Bool :=
  (0x30 ≤ b.val && b.val ≤ 0x39) || b == 0x2D || b == 0x2B || b == 0x2E || b == 0x65 ||
    b == 0x45

/-- Reads the elements of an array after the first `[`, given the reader of one value. -/
def parseElements (value : List Byte → Option (JSON × List Byte)) :
    Nat → List Byte → Option (List JSON × List Byte)
  | 0, _ => none
  | fuel + 1, input =>
    match value input with
    | none => none
    | some (v, rest) =>
      match skipWS rest with
      | b :: rest1 =>
        if b = 0x2C then (parseElements value fuel rest1).map (fun p => (v :: p.1, p.2))
        else if b = 0x5D then some ([v], rest1)
        else none
      | [] => none

/-- Reads the members of an object after the first `{`, given the reader of one value. -/
def parseMembers (value : List Byte → Option (JSON × List Byte)) :
    Nat → List Byte → Option (List (List Byte × JSON) × List Byte)
  | 0, _ => none
  | fuel + 1, input =>
    match skipWS input with
    | q :: rest =>
      if q = 0x22 then
        match unquote rest.length rest with
        | none => none
        | some (key, rest1) =>
          match skipWS rest1 with
          | c :: rest2 =>
            if c = 0x3A then
              match value rest2 with
              | none => none
              | some (v, rest3) =>
                match skipWS rest3 with
                | b :: rest4 =>
                  if b = 0x2C then
                    (parseMembers value fuel rest4).map (fun p => ((key, v) :: p.1, p.2))
                  else if b = 0x7D then some ([(key, v)], rest4)
                  else none
                | [] => none
            else none
          | [] => none
      else none
    | [] => none

/-- Reads one JSON value at the start of the input (after white space) and returns it
with the rest of the input. `fuel` bounds the nesting depth. -/
def parseValue : Nat → List Byte → Option (JSON × List Byte)
  | 0, _ => none
  | fuel + 1, input =>
    match skipWS input with
    | [] => none
    | b :: rest =>
      if b = 0x22 then
        (unquote rest.length rest).map (fun p => (JSON.string p.1, p.2))
      else if b = 0x5B then
        match skipWS rest with
        | c :: rest1 =>
          if c = 0x5D then some (JSON.array [], rest1)
          else (parseElements (parseValue fuel) rest.length rest).map
            (fun p => (JSON.array p.1, p.2))
        | [] => none
      else if b = 0x7B then
        match skipWS rest with
        | c :: rest1 =>
          if c = 0x7D then some (JSON.object [], rest1)
          else (parseMembers (parseValue fuel) rest.length rest).map
            (fun p => (JSON.object p.1, p.2))
        | [] => none
      else if (b :: rest).take 4 = bytes "true" then some (JSON.bool true, rest.drop 3)
      else if (b :: rest).take 5 = bytes "false" then some (JSON.bool false, rest.drop 4)
      else if (b :: rest).take 4 = bytes "null" then some (JSON.null, rest.drop 3)
      else if isNumberByte b then
        some (JSON.number ((b :: rest).takeWhile isNumberByte),
          (b :: rest).dropWhile isNumberByte)
      else none

/-- Reads a complete JSON text: one value, with nothing but white space after it. -/
def parseJSON (input : List Byte) : Option JSON :=
  match parseValue input.length input with
  | some (v, rest) => if skipWS rest = [] then some v else none
  | none => none

/-! ## Concrete collaborators used to run the model -/

/-- A verifier that accepts every request as coming from the service `slack`. -/
def acceptAll : RequestVerifier := fun _ _ => ("slack", none)

/-- A verifier that rejects every request. -/
def rejectAll : RequestVerifier := fun _ _ => ("", some "invalid signature")

/-- A decoder that knows one body: `body` decodes to `values`, any other body is
malformed. -/
def decodeAs (body : String) (values : Values) : QueryDecoder :=
  fun data => if data = body then (values, none) else ([], some "invalid URL escape")

/-- The range order that visits the catalog in the order of the source text. -/
def sourceOrder : RangeOrder := ⟨commandsHelp, List.Perm.refl _⟩

/-- Another range order: the catalog visited from its second entry on, the first entry
last. -/
def rotatedOrder : RangeOrder := ⟨commandsHelp.rotate 1, List.rotate_perm _ _⟩

/-- A request whose body reads completely as `body`. -/
def formRequest (body : String) : Request :=
  ⟨.ok body, [("Content-Type", ["application/x-www-form-urlencoded"])]⟩

/-- The decoded form of a slash command sent from channel `general` with the given text. -/
def formValues (text : String) : Values :=
  [("channel_name", ["general"]), ("command", ["/argocd"]), ("text", [text])]

/-- The command that `unsubscribe proj:bar baz` from channel `general` parses to. -/
def unsubscribeProjBar : bot.Command :=
  { Service := "slack", Recipient := "general",
    Unsubscribe := some { Project := "bar", Trigger := "baz" } }

/-- The command that `list-subscriptions now please` from channel `general` parses to. -/
def listNowPlease : bot.Command :=
  { Service := "slack", Recipient := "general", ListSubscriptions := some {} }

/-- The command that `subscribe proj:bar baz` from channel `general` parses to. -/
def subscribeProjBar : bot.Command :=
  { Service := "slack", Recipient := "general",
    Subscribe := some { Project := "bar", Trigger := "baz" } }

/-! ## Facts about `strings.Fields` and `strings.Split` -/

theorem fieldsAux_run (w : List Char) (hw : ∀ c ∈ w, isSpace c = false) (rest cur : List Char) :
    fieldsAux (w ++ rest) cur = fieldsAux rest (cur ++ w) := by
  induction w generalizing cur with
  | nil => simp
  | cons c w ih =>
    have hc : isSpace c = false := hw c (List.mem_cons_self _ _)
    have hw2 : ∀ d ∈ w, isSpace d = false := fun d hd => hw d (List.mem_cons_of_mem _ hd)
    simp [fieldsAux, hc, ih hw2]

theorem fieldsAux_spaces (ws : List Char) (hws : ∀ c ∈ ws, isSpace c = true) (rest : List Char) :
    fieldsAux (ws ++ rest) [] = fieldsAux rest [] := by
  induction ws with
  | nil => simp
  | cons c ws ih =>
    have hc : isSpace c = true := hws c (List.mem_cons_self _ _)
    have hw2 : ∀ d ∈ ws, isSpace d = true := fun d hd => hws d (List.mem_cons_of_mem _ hd)
    simp [fieldsAux, hc, ih hw2]

theorem fieldsAux_token (w : List Char) (hw : ∀ c ∈ w, isSpace c = false) (hne : w ≠ [])
    (sp : Char) (hsp : isSpace sp = true) (rest : List Char) :
    fieldsAux (w ++ sp :: rest) [] = w :: fieldsAux rest [] := by
  rw [fieldsAux_run w hw]
  simp [fieldsAux, hsp, hne]

theorem fieldsAux_last (w : List Char) (hw : ∀ c ∈ w, isSpace c = false) :
    fieldsAux w [] = if w = [] then [] else [w] := by
  have h := fieldsAux_run w hw [] []
  simp only [List.append_nil, List.nil_append] at h
  rw [h]; simp [fieldsAux]

theorem splitAux_run (sep : Char) (w : List Char) (hw : ∀ c ∈ w, c ≠ sep)
    (rest cur : List Char) :
    splitAux sep (w ++ rest) cur = splitAux sep rest (cur ++ w) := by
  induction w generalizing cur with
  | nil => simp
  | cons c w ih =>
    have hc : c ≠ sep := hw c (List.mem_cons_self _ _)
    have hw2 : ∀ d ∈ w, d ≠ sep := fun d hd => hw d (List.mem_cons_of_mem _ hd)
    simp [splitAux, hc, ih hw2]

theorem splitAux_whole (sep : Char) (w : List Char) (hw : ∀ c ∈ w, c ≠ sep) :
    splitAux sep w [] = [w] := by
  have h := splitAux_run sep w hw [] []
  simp only [List.append_nil, List.nil_append] at h
  rw [h]; simp [splitAux]

theorem splitAux_head (sep : Char) (w : List Char) (hw : ∀ c ∈ w, c ≠ sep)
    (rest : List Char) :
    splitAux sep (w ++ sep :: rest) [] = w :: splitAux sep rest [] := by
  rw [splitAux_run sep w hw]
  simp [splitAux]

theorem splitAux_ne_nil (sep : Char) (l cur : List Char) : splitAux sep l cur ≠ [] := by
  induction l generalizing cur with
  | nil => simp [splitAux]
  | cons c l ih =>
    simp only [splitAux]
    split
    · simp
    · exact ih _

theorem Fields_nil (s : String) (h : ∀ c ∈ s.data, isSpace c = true) : Fields s = [] := by
  have := fieldsAux_spaces s.data h []
  simp only [List.append_nil] at this
  simp [Fields, this, fieldsAux]

theorem Fields_cons (w rest : String) (hw : ∀ c ∈ w.data, isSpace c = false) (hne : w ≠ "") :
    Fields (w ++ " " ++ rest) = w :: Fields rest := by
  have hne2 : w.data ≠ [] := fun h => hne (String.ext h)
  have := fieldsAux_token w.data hw hne2 ' ' (by decide) rest.data
  simp only [Fields, String.data_append]
  rw [List.append_assoc, List.singleton_append, this]
  simp

theorem Fields_last (w : String) (hw : ∀ c ∈ w.data, isSpace c = false) (hne : w ≠ "") :
    Fields w = [w] := by
  have hne2 : w.data ≠ [] := fun h => hne (String.ext h)
  simp [Fields, fieldsAux_last w.data hw, hne2]

theorem Split_whole (n : String) (h : ∀ c ∈ n.data, c ≠ ':') : Split n ':' = [n] := by
  simp [Split, splitAux_whole ':' n.data h]

theorem Split_kind (k v : String) (hk : ∀ c ∈ k.data, c ≠ ':') :
    Split (k ++ ":" ++ v) ':' = k :: Split v ':' := by
  have := splitAux_head ':' k.data hk v.data
  simp only [Split, String.data_append]
  rw [List.append_assoc, List.singleton_append, this]
  simp

theorem Split_ne_nil (s : String) (sep : Char) : Split s sep ≠ [] := by
  simp [Split, splitAux_ne_nil]

/-! ## The paths of `Parse` -/

theorem Parse_of_error (decode : QueryDecoder) (order : RangeOrder) (s : slack)
    (r : Request) (service : String) (query : Values) (e : String)
    (calls : List VerifierCall)
    (hq : s.parseQuery decode r = ((service, query, some e), calls)) :
    s.Parse decode order r = some (({}, some e), calls) := by
  simp [slack.Parse, hq]

theorem Parse_no_channel (decode : QueryDecoder) (order : RangeOrder) (s : slack)
    (r : Request) (service : String) (query : Values) (calls : List VerifierCall)
    (hq : s.parseQuery decode r = ((service, query, none), calls))
    (hc : query.Get "channel_name" = "") :
    s.Parse decode order r =
      some (({ Service := service }, some "request does not have channel"), calls) := by
  simp [slack.Parse, hq, hc]

theorem Parse_no_tokens (decode : QueryDecoder) (order : RangeOrder) (s : slack)
    (r : Request) (service : String) (query : Values) (calls : List VerifierCall)
    (hq : s.parseQuery decode r = ((service, query, none), calls))
    (hc : query.Get "channel_name" ≠ "")
    (ht : Fields (query.Get "text") = []) :
    s.Parse decode order r =
      some (({ Service := service }, some (usageInstructions order query "" none)), calls) := by
  simp [slack.Parse, hq, hc, ht]

theorem Parse_list (decode : QueryDecoder) (order : RangeOrder) (s : slack)
    (r : Request) (service : String) (query : Values) (calls : List VerifierCall)
    (hq : s.parseQuery decode r = ((service, query, none), calls))
    (hc : query.Get "channel_name" ≠ "") (rest : List String)
    (ht : Fields (query.Get "text") = "list-subscriptions" :: rest) :
    s.Parse decode order r =
      some (({ Service := service, Recipient := query.Get "channel_name",
               ListSubscriptions := some {} }, none), calls) := by
  simp [slack.Parse, hq, hc, ht]

theorem Parse_unknown (decode : QueryDecoder) (order : RangeOrder) (s : slack)
    (r : Request) (service : String) (query : Values) (calls : List VerifierCall)
    (hq : s.parseQuery decode r = ((service, query, none), calls))
    (hc : query.Get "channel_name" ≠ "") (verb : String) (rest : List String)
    (ht : Fields (query.Get "text") = verb :: rest)
    (h1 : verb ≠ "list-subscriptions") (h2 : verb ≠ "subscribe") (h3 : verb ≠ "unsubscribe") :
    s.Parse decode order r =
      some (({ Service := service, Recipient := query.Get "channel_name" },
        some (usageInstructions order query "" none)), calls) := by
  simp [slack.Parse, hq, hc, ht, h1, h2, h3]

theorem Parse_one_token (decode : QueryDecoder) (order : RangeOrder) (s : slack)
    (r : Request) (service : String) (query : Values) (calls : List VerifierCall)
    (hq : s.parseQuery decode r = ((service, query, none), calls))
    (hc : query.Get "channel_name" ≠ "") (verb : String)
    (ht : Fields (query.Get "text") = [verb])
    (hv : verb = "subscribe" ∨ verb = "unsubscribe") :
    s.Parse decode order r =
      some (({ Service := service, Recipient := query.Get "channel_name" },
        some (usageInstructions order query verb (some "at least one argument expected"))),
        calls) := by
  rcases hv with hv | hv <;> subst hv <;> simp [slack.Parse, hq, hc, ht]

theorem Parse_update (decode : QueryDecoder) (order : RangeOrder) (s : slack)
    (r : Request) (service : String) (query : Values) (calls : List VerifierCall)
    (hq : s.parseQuery decode r = ((service, query, none), calls))
    (hc : query.Get "channel_name" ≠ "") (verb name : String) (rest : List String)
    (ht : Fields (query.Get "text") = verb :: name :: rest)
    (hv : verb = "subscribe" ∨ verb = "unsubscribe")
    (kind value : String) (tl : List String)
    (hn : (if (Split name ':').length = 1 then ["app"] ++ Split name ':' else Split name ':')
      = kind :: value :: tl) :
    s.Parse decode order r =
      if kind = "app" ∨ kind = "proj" then
        let update : bot.UpdateSubscription :=
          { App := if kind = "app" then value else "",
            Project := if kind = "app" then "" else value,
            Trigger := rest.headD "" }
        some (({ Service := service, Recipient := query.Get "channel_name",
                 Subscribe := if verb = "subscribe" then some update else none,
                 Unsubscribe := if verb = "subscribe" then none else some update }, none), calls)
      else
        some (({ Service := service, Recipient := query.Get "channel_name" },
          some (usageInstructions order query verb (some ("incorrect name argument: " ++ name)))),
          calls) := by
  have hv1 : verb ≠ "list-subscriptions" := by rcases hv with hv | hv <;> subst hv <;> decide
  have hn2 : (if (Split name ':').length = 1 then "app" :: Split name ':' else Split name ':')
      = kind :: value :: tl := hn
  have hlen : ∀ n : Nat, ¬ (n + 1 + 1 + 1 < 2) := fun n => by omega
  by_cases hk : kind = "app"
  · subst hk
    rcases hv with hv | hv <;> subst hv <;> cases rest <;>
      simp [slack.Parse, hq, hc, ht, hn2, hlen]
  · by_cases hk2 : kind = "proj"
    · subst hk2
      rcases hv with hv | hv <;> subst hv <;> cases rest <;>
        simp [slack.Parse, hq, hc, ht, hn2, hlen]
    · rcases hv with hv | hv <;> subst hv <;>
        simp [slack.Parse, hq, hc, ht, hn2, hk, hk2]

/-! ## Facts about `Execute` and `usageInstructions` -/

theorem foldl_append_out (f : Node → String) (ns : List Node) (wr : String) :
    ns.foldl (fun out n => out ++ f n) wr = wr ++ ns.foldl (fun out n => out ++ f n) "" := by
  induction ns generalizing wr with
  | nil => simp
  | cons n ns ih =>
    simp only [List.foldl_cons]
    rw [ih (wr ++ f n), ih ("" ++ f n)]
    simp [String.append_assoc]

theorem Execute_eq (t : Template) (wr : String) (data : List (String × String)) :
    t.Execute wr data = (wr ++ (t.Execute "" data).1, none) := by
  have h := foldl_append_out
    (fun n => match n with
      | Node.text s => s
      | Node.field name => (data.lookup name).getD "<no value>") t.nodes wr
  have e : ∀ w : String, t.nodes.foldl (fun out n =>
        match n with
        | Node.text s => out ++ s
        | Node.field name => out ++ (data.lookup name).getD "<no value>") w
      = t.nodes.foldl (fun out n => out ++ (match n with
        | Node.text s => s
        | Node.field name => (data.lookup name).getD "<no value>")) w := by
    intro w
    congr 1
    funext out n
    cases n <;> rfl
  simp only [Template.Execute, e]
  rw [h]

theorem rangeTemplates_eq (d : String) (l : List (String × Template)) (usage : String) :
    rangeTemplates d l usage =
      .ok (usage ++ (l.map (fun e => (e.2.Execute "" [("cmd", d)]).1 ++ "\n")).foldr
        (fun a b => a ++ b) "") := by
  induction l generalizing usage with
  | nil => simp [rangeTemplates]
  | cons e l ih =>
    obtain ⟨k, t⟩ := e
    simp only [rangeTemplates]
    rw [Execute_eq t usage]
    simp [ih, String.append_assoc]

theorem usageInstructions_known (order : RangeOrder) (query : Values) (command : String)
    (err : Option String) (tmpl : Template) (h : commandsHelp.lookup command = some tmpl) :
    usageInstructions order query command err =
      (match err with
        | some e => e ++ "\n"
        | none => "") ++
      (tmpl.Execute ""
        [("cmd", if query.Get "command" ≠ "" then query.Get "command" else "/argocd")]).1 := by
  simp only [usageInstructions, h]
  rw [Execute_eq tmpl]
  cases err <;> simp

theorem usageInstructions_unknown (order : RangeOrder) (query : Values) (command : String)
    (err : Option String) (h : commandsHelp.lookup command = none) :
    usageInstructions order query command err =
      (match err with
        | some e => e ++ "\n"
        | none => "") ++
      (":wave: Need some help with `" ++
        (if query.Get "command" ≠ "" then query.Get "command" else "/argocd") ++ "`?\n") ++
      (order.entries.map (fun e => (e.2.Execute ""
        [("cmd", if query.Get "command" ≠ "" then query.Get "command" else "/argocd")]).1
          ++ "\n")).foldr (fun a b => a ++ b) "" := by
  simp only [usageInstructions, h, rangeTemplates_eq]
  cases err <;> simp [String.append_assoc]

theorem usageInstructions_congr (order : RangeOrder) (q1 q2 : Values) (command : String)
    (err : Option String) (h : q1.Get "command" = q2.Get "command") :
    usageInstructions order q1 command err = usageInstructions order q2 command err := by
  simp only [usageInstructions, h]

theorem lookup_empty : commandsHelp.lookup "" = none := by decide

theorem nameParts_shape (name : String) :
    ∃ kind value tl,
      (if (Split name ':').length = 1 then ["app"] ++ Split name ':' else Split name ':')
        = kind :: value :: tl := by
  rcases hsp : Split name ':' with _ | ⟨a, _ | ⟨b, tl⟩⟩
  · exact absurd hsp (Split_ne_nil name ':')
  · exact ⟨"app", a, [], by simp⟩
  · exact ⟨a, b, tl, by simp⟩

theorem Parse_success_cases (decode : QueryDecoder) (order : RangeOrder) (s : slack)
    (r : Request) (service : String) (query : Values) (err : Option String)
    (calls0 calls : List VerifierCall) (cmd : bot.Command)
    (hq : s.parseQuery decode r = ((service, query, err), calls0))
    (h : s.Parse decode order r = some ((cmd, none), calls)) :
    err = none ∧ calls = calls0 ∧ query.Get "channel_name" ≠ "" ∧
    ((∃ rest, Fields (query.Get "text") = "list-subscriptions" :: rest ∧
        cmd = { Service := service, Recipient := query.Get "channel_name",
                ListSubscriptions := some {} }) ∨
     (∃ verb name rest kind value tl,
        Fields (query.Get "text") = verb :: name :: rest ∧
        (verb = "subscribe" ∨ verb = "unsubscribe") ∧
        (if (Split name ':').length = 1 then ["app"] ++ Split name ':' else Split name ':')
          = kind :: value :: tl ∧
        (kind = "app" ∨ kind = "proj") ∧
        cmd = { Service := service, Recipient := query.Get "channel_name",
                Subscribe := if verb = "subscribe" then
                  some { App := if kind = "app" then value else "",
                         Project := if kind = "app" then "" else value,
                         Trigger := rest.headD "" } else none,
                Unsubscribe := if verb = "subscribe" then none else
                  some { App := if kind = "app" then value else "",
                         Project := if kind = "app" then "" else value,
                         Trigger := rest.headD "" } })) := by
  cases err with
  | some e =>
    rw [Parse_of_error decode order s r service query e calls0 hq] at h
    simp at h
  | none =>
    by_cases hc : query.Get "channel_name" = ""
    · rw [Parse_no_channel decode order s r service query calls0 hq hc] at h
      simp at h
    · rcases ht : Fields (query.Get "text") with _ | ⟨verb, rest⟩
      · rw [Parse_no_tokens decode order s r service query calls0 hq hc ht] at h
        simp at h
      · by_cases h1 : verb = "list-subscriptions"
        · subst h1
          rw [Parse_list decode order s r service query calls0 hq hc rest ht] at h
          simp only [Option.some.injEq, Prod.mk.injEq, and_true] at h
          exact ⟨rfl, h.2.symm, hc, Or.inl ⟨rest, rfl, h.1.symm⟩⟩
        · by_cases hv : verb = "subscribe" ∨ verb = "unsubscribe"
          · rcases rest with _ | ⟨name, rest⟩
            · rw [Parse_one_token decode order s r service query calls0 hq hc verb ht hv] at h
              simp at h
            · obtain ⟨kind, value, tl, hn⟩ := nameParts_shape name
              rw [Parse_update decode order s r service query calls0 hq hc verb name rest ht hv
                kind value tl hn] at h
              by_cases hk : kind = "app" ∨ kind = "proj"
              · simp only [hk, if_true, Option.some.injEq, Prod.mk.injEq, and_true] at h
                exact ⟨rfl, h.2.symm, hc, Or.inr ⟨verb, name, rest, kind, value, tl, rfl, hv, hn,
                  hk, h.1.symm⟩⟩
              · simp [hk] at h
          · have h2 : verb ≠ "subscribe" := fun e => hv (Or.inl e)
            have h3 : verb ≠ "unsubscribe" := fun e => hv (Or.inr e)
            rw [Parse_unknown decode order s r service query calls0 hq hc verb rest ht h1 h2 h3]
              at h
            simp at h

theorem Fields_headD (t : String) (ht : ∀ c ∈ t.data, isSpace c = false) :
    (Fields t).headD "" = t := by
  by_cases h : t = ""
  · subst h; rfl
  · rw [Fields_last t ht h]; rfl

theorem noSpace_append (a b : String) (ha : ∀ c ∈ a.data, isSpace c = false)
    (hb : ∀ c ∈ b.data, isSpace c = false) : ∀ c ∈ (a ++ b).data, isSpace c = false := by
  intro c hc
  rw [String.data_append, List.mem_append] at hc
  rcases hc with hc | hc
  · exact ha c hc
  · exact hb c hc

theorem append_ne_empty (a b : String) (ha : a ≠ "") : a ++ b ≠ "" := by
  intro h
  apply ha
  have h2 := congrArg String.data h
  rw [String.data_append] at h2
  apply String.ext
  exact (List.append_eq_nil.mp h2).1

theorem Fields_verb_name (verb name t : String)
    (hv : verb = "subscribe" ∨ verb = "unsubscribe")
    (hname : ∀ c ∈ name.data, isSpace c = false) (hne : name ≠ "") :
    Fields (verb ++ " " ++ (name ++ " " ++ t)) = verb :: name :: Fields t ∧
    Fields (verb ++ " " ++ name) = [verb, name] := by
  have hvs : ∀ c ∈ verb.data, isSpace c = false := by
    rcases hv with hv | hv <;> subst hv <;> decide
  have hvne : verb ≠ "" := by
    rcases hv with hv | hv <;> subst hv <;> decide
  constructor
  · rw [Fields_cons verb _ hvs hvne, Fields_cons name _ hname hne]
  · rw [Fields_cons verb _ hvs hvne, Fields_last name hname hne]

theorem Split_prefixed (k v : String) (hk : ∀ c ∈ k.data, c ≠ ':')
    (hvc : ∀ c ∈ v.data, c ≠ ':') :
    (if (Split (k ++ ":" ++ v) ':').length = 1 then ["app"] ++ Split (k ++ ":" ++ v) ':'
      else Split (k ++ ":" ++ v) ':') = [k, v] := by
  rw [Split_kind k v hk, Split_whole v hvc]
  rfl

/-! ## Claims -/

/-- C1: whenever `Parse` returns without an error, the returned `Command` has a non-empty
`Recipient` and exactly one of the three action fields `ListSubscriptions`, `Subscribe`,
`Unsubscribe` populated, the other two being nil. -/
theorem Parse_success_one_action (decode : QueryDecoder) (order : RangeOrder) (s : slack)
    (r : Request) (cmd : bot.Command) (calls : List VerifierCall)
    (h : s.Parse decode order r = some ((cmd, none), calls)) :
    cmd.Recipient ≠ "" ∧
    ((cmd.ListSubscriptions ≠ none ∧ cmd.Subscribe = none ∧ cmd.Unsubscribe = none) ∨
     (cmd.ListSubscriptions = none ∧ cmd.Subscribe ≠ none ∧ cmd.Unsubscribe = none) ∨
     (cmd.ListSubscriptions = none ∧ cmd.Subscribe = none ∧ cmd.Unsubscribe ≠ none)) := by
  rcases hq : s.parseQuery decode r with ⟨⟨service, query, err⟩, calls0⟩
  obtain ⟨-, -, hc, hcases⟩ :=
    Parse_success_cases decode order s r service query err calls0 calls cmd hq h
  rcases hcases with ⟨rest, -, hcmd⟩ | ⟨verb, name, rest, kind, value, tl, -, hv, -, -, hcmd⟩
  · subst hcmd
    exact ⟨hc, Or.inl ⟨by simp, rfl, rfl⟩⟩
  · subst hcmd
    refine ⟨hc, Or.inr ?_⟩
    by_cases hs : verb = "subscribe"
    · exact Or.inl ⟨rfl, by simp [hs], by simp [hs]⟩
    · exact Or.inr ⟨rfl, by simp [hs], by simp [hs]⟩

/-- C1 at the request `subscribe app:foo bar` from channel `general`. -/
theorem Parse_success_one_action_witness :
    (slack.mk acceptAll).Parse (decodeAs "body" (formValues "subscribe app:foo bar"))
        sourceOrder (formRequest "body") =
      some (({ Service := "slack", Recipient := "general",
               Subscribe := some { App := "foo", Trigger := "bar" } }, none),
        [("body", (formRequest "body").Header)]) ∧
    (("general" : String) ≠ "" ∧
    (((none : Option bot.ListSubscriptions) ≠ none ∧
        some ({ App := "foo", Trigger := "bar" } : bot.UpdateSubscription) = none ∧
        (none : Option bot.UpdateSubscription) = none) ∨
     ((none : Option bot.ListSubscriptions) = none ∧
        some ({ App := "foo", Trigger := "bar" } : bot.UpdateSubscription) ≠ none ∧
        (none : Option bot.UpdateSubscription) = none) ∨
     ((none : Option bot.ListSubscriptions) = none ∧
        some ({ App := "foo", Trigger := "bar" } : bot.UpdateSubscription) = none ∧
        (none : Option bot.UpdateSubscription) ≠ none))) :=
  ⟨by rfl,
   Parse_success_one_action (decodeAs "body" (formValues "subscribe app:foo bar")) sourceOrder
     (slack.mk acceptAll) (formRequest "body")
     { Service := "slack", Recipient := "general",
       Subscribe := some { App := "foo", Trigger := "bar" } }
     [("body", (formRequest "body").Header)] (by rfl)⟩

/-- C2 (as the code has it): on success with a `Subscribe` or `Unsubscribe` payload `u`,
with `value` the second element of `nameParts` (the segment after the first `:` of the
second token, or the whole token when it has no `:`), either `App = value` and
`Project = ""`, or `App = ""` and `Project = value`. So `App` and `Project` are never both
non-empty, and exactly one of them is non-empty if and only if `value` is non-empty. -/
theorem Parse_update_app_or_project (decode : QueryDecoder) (order : RangeOrder) (s : slack)
    (r : Request) (service : String) (query : Values) (err : Option String)
    (calls0 calls : List VerifierCall) (cmd : bot.Command) (u : bot.UpdateSubscription)
    (hq : s.parseQuery decode r = ((service, query, err), calls0))
    (h : s.Parse decode order r = some ((cmd, none), calls))
    (hu : cmd.Subscribe = some u ∨ cmd.Unsubscribe = some u) :
    ∃ verb name rest value,
      Fields (query.Get "text") = verb :: name :: rest ∧
      (if (Split name ':').length = 1 then ["app"] ++ Split name ':' else Split name ':')[1]?
        = some value ∧
      ((u.App = value ∧ u.Project = "") ∨ (u.App = "" ∧ u.Project = value)) ∧
      (u.App = "" ∨ u.Project = "") ∧
      (((u.App ≠ "" ∧ u.Project = "") ∨ (u.App = "" ∧ u.Project ≠ "")) ↔ value ≠ "") := by
  obtain ⟨-, -, -, hcases⟩ :=
    Parse_success_cases decode order s r service query err calls0 calls cmd hq h
  rcases hcases with ⟨rest, -, hcmd⟩ | ⟨verb, name, rest, kind, value, tl, ht, hv, hn, hk, hcmd⟩
  · subst hcmd
    simp at hu
  · subst hcmd
    have hu2 : u = { App := if kind = "app" then value else "",
                     Project := if kind = "app" then "" else value,
                     Trigger := rest.headD "" } := by
      dsimp only at hu
      by_cases hs : verb = "subscribe"
      · rw [if_pos hs, if_pos hs] at hu
        rcases hu with hu | hu
        · exact (Option.some.inj hu).symm
        · exact absurd hu (by simp)
      · rw [if_neg hs, if_neg hs] at hu
        rcases hu with hu | hu
        · exact absurd hu (by simp)
        · exact (Option.some.inj hu).symm
    refine ⟨verb, name, rest, value, ht, by rw [hn]; simp, ?_⟩
    by_cases hka : kind = "app"
    · simp [hu2, hka]
    · simp [hu2, hka]

/-- C2, the claim as written fails: `subscribe app:` is accepted and yields an
`UpdateSubscription` in which neither `App` nor `Project` is set. -/
theorem Parse_update_neither_set :
    (slack.mk acceptAll).Parse (decodeAs "channel_name=general&text=subscribe+app%3A"
        [("channel_name", ["general"]), ("text", ["subscribe app:"])])
        sourceOrder (formRequest "channel_name=general&text=subscribe+app%3A") =
      some (({ Service := "slack", Recipient := "general",
               Subscribe := some { App := "", Project := "", Trigger := "" } }, none),
        [("channel_name=general&text=subscribe+app%3A",
          (formRequest "channel_name=general&text=subscribe+app%3A").Header)]) := by
  rfl

/-- C2 at the request `unsubscribe proj:bar baz`. -/
theorem Parse_update_app_or_project_witness :
    ((slack.mk acceptAll).parseQuery (decodeAs "body" (formValues "unsubscribe proj:bar baz"))
        (formRequest "body") =
      (("slack", formValues "unsubscribe proj:bar baz", none),
        [("body", (formRequest "body").Header)])) ∧
    ((slack.mk acceptAll).Parse (decodeAs "body" (formValues "unsubscribe proj:bar baz"))
        sourceOrder (formRequest "body") =
      some ((unsubscribeProjBar, none), [("body", (formRequest "body").Header)])) ∧
    (unsubscribeProjBar.Subscribe = some { Project := "bar", Trigger := "baz" } ∨
      unsubscribeProjBar.Unsubscribe = some { Project := "bar", Trigger := "baz" }) ∧
    ∃ verb name rest value,
      Fields (Values.Get (formValues "unsubscribe proj:bar baz") "text")
        = verb :: name :: rest ∧
      (if (Split name ':').length = 1 then ["app"] ++ Split name ':' else Split name ':')[1]?
        = some value ∧
      ((({ Project := "bar", Trigger := "baz" } : bot.UpdateSubscription).App = value ∧
          ({ Project := "bar", Trigger := "baz" } : bot.UpdateSubscription).Project = "") ∨
        (({ Project := "bar", Trigger := "baz" } : bot.UpdateSubscription).App = "" ∧
          ({ Project := "bar", Trigger := "baz" } : bot.UpdateSubscription).Project = value)) ∧
      (({ Project := "bar", Trigger := "baz" } : bot.UpdateSubscription).App = "" ∨
        ({ Project := "bar", Trigger := "baz" } : bot.UpdateSubscription).Project = "") ∧
      (((({ Project := "bar", Trigger := "baz" } : bot.UpdateSubscription).App ≠ "" ∧
          ({ Project := "bar", Trigger := "baz" } : bot.UpdateSubscription).Project = "") ∨
        (({ Project := "bar", Trigger := "baz" } : bot.UpdateSubscription).App = "" ∧
          ({ Project := "bar", Trigger := "baz" } : bot.UpdateSubscription).Project ≠ ""))
        ↔ value ≠ "") :=
  ⟨by rfl, by rfl, Or.inr (by rfl),
   Parse_update_app_or_project (decodeAs "body" (formValues "unsubscribe proj:bar baz"))
     sourceOrder (slack.mk acceptAll) (formRequest "body") "slack"
     (formValues "unsubscribe proj:bar baz") none [("body", (formRequest "body").Header)]
     [("body", (formRequest "body").Header)] unsubscribeProjBar
     { Project := "bar", Trigger := "baz" } (by rfl) (by rfl) (Or.inr (by rfl))⟩

/-- C3: when the body can be read and the verifier returns an error `e` for it, `Parse`
returns the error "failed to verify request signature: " followed by `e`, with the zero
`Command`, whatever the form decoder would make of the body; the verifier has then been
called exactly once, with the raw body and the request headers. -/
theorem Parse_verifier_error (decode : QueryDecoder) (order : RangeOrder) (s : slack)
    (r : Request) (data service e : String)
    (hb : r.Body = .ok data)
    (hv : s.verifier data r.Header = (service, some e)) :
    s.Parse decode order r =
      some (({}, some ("failed to verify request signature: " ++ e)), [(data, r.Header)]) := by
  have hq : s.parseQuery decode r =
      (("", [], some ("failed to verify request signature: " ++ e)), [(data, r.Header)]) := by
    simp [slack.parseQuery, ReadAll, hb, hv]
  exact Parse_of_error decode order s r "" [] _ _ hq

/-- C3 at a request that the rejecting verifier refuses, with a well-formed body. -/
theorem Parse_verifier_error_witness :
    (formRequest "channel_name=general&text=list-subscriptions").Body
      = .ok "channel_name=general&text=list-subscriptions" ∧
    (slack.mk rejectAll).verifier "channel_name=general&text=list-subscriptions"
        (formRequest "channel_name=general&text=list-subscriptions").Header
      = ("", some "invalid signature") ∧
    (slack.mk rejectAll).Parse
        (decodeAs "channel_name=general&text=list-subscriptions"
          [("channel_name", ["general"]), ("text", ["list-subscriptions"])])
        sourceOrder (formRequest "channel_name=general&text=list-subscriptions") =
      some (({}, some ("failed to verify request signature: " ++ "invalid signature")),
        [("channel_name=general&text=list-subscriptions",
          (formRequest "channel_name=general&text=list-subscriptions").Header)]) :=
  ⟨rfl, rfl,
   Parse_verifier_error
     (decodeAs "channel_name=general&text=list-subscriptions"
       [("channel_name", ["general"]), ("text", ["list-subscriptions"])])
     sourceOrder (slack.mk rejectAll)
     (formRequest "channel_name=general&text=list-subscriptions")
     "channel_name=general&text=list-subscriptions" "" "invalid signature" rfl rfl⟩

/-- C4: for a verified, decodable request whose `channel_name` parameter is absent or
empty, `Parse` fails with "request does not have channel", whatever the other parameters
(in particular `text`) contain. -/
theorem Parse_missing_channel (decode : QueryDecoder) (order : RangeOrder) (s : slack)
    (r : Request) (service : String) (query : Values) (calls : List VerifierCall)
    (hq : s.parseQuery decode r = ((service, query, none), calls))
    (hc : query.lookup "channel_name" = none ∨ query.Get "channel_name" = "") :
    s.Parse decode order r =
      some (({ Service := service }, some "request does not have channel"), calls) := by
  have hc2 : query.Get "channel_name" = "" := by
    rcases hc with hc | hc
    · simp [Values.Get, hc]
    · exact hc
  exact Parse_no_channel decode order s r service query calls hq hc2

/-- C4 at a request with a valid command in `text` and no `channel_name`. -/
theorem Parse_missing_channel_witness :
    ((slack.mk acceptAll).parseQuery
        (decodeAs "text=subscribe+app%3Afoo+bar" [("text", ["subscribe app:foo bar"])])
        (formRequest "text=subscribe+app%3Afoo+bar") =
      (("slack", [("text", ["subscribe app:foo bar"])], none),
        [("text=subscribe+app%3Afoo+bar", (formRequest "text=subscribe+app%3Afoo+bar").Header)]))
    ∧
    (List.lookup "channel_name" ([("text", ["subscribe app:foo bar"])] : Values) = none ∨
      Values.Get [("text", ["subscribe app:foo bar"])] "channel_name" = "") ∧
    (slack.mk acceptAll).Parse
        (decodeAs "text=subscribe+app%3Afoo+bar" [("text", ["subscribe app:foo bar"])])
        sourceOrder (formRequest "text=subscribe+app%3Afoo+bar") =
      some (({ Service := "slack" }, some "request does not have channel"),
        [("text=subscribe+app%3Afoo+bar", (formRequest "text=subscribe+app%3Afoo+bar").Header)]) :=
  ⟨by rfl, Or.inl (by rfl),
   Parse_missing_channel
     (decodeAs "text=subscribe+app%3Afoo+bar" [("text", ["subscribe app:foo bar"])])
     sourceOrder (slack.mk acceptAll) (formRequest "text=subscribe+app%3Afoo+bar") "slack"
     [("text", ["subscribe app:foo bar"])]
     [("text=subscribe+app%3Afoo+bar", (formRequest "text=subscribe+app%3Afoo+bar").Header)]
     (by rfl) (Or.inl (by rfl))⟩

/-- C5: for a verified request with a non-empty `channel_name` whose `text` is empty or
only white space, `Parse` returns the error `usageInstructions(query, "", nil)`, and that
text is the greeting line followed by the rendering of every catalog template (the
entries of `commandsHelp` in the order of the `range` loop, each rendering followed by a
newline), with nothing before the greeting. -/
theorem Parse_blank_text (decode : QueryDecoder) (order : RangeOrder) (s : slack)
    (r : Request) (service : String) (query : Values) (calls : List VerifierCall)
    (hq : s.parseQuery decode r = ((service, query, none), calls))
    (hc : query.Get "channel_name" ≠ "")
    (ht : ∀ c ∈ (query.Get "text").data, isSpace c = true) :
    s.Parse decode order r =
      some (({ Service := service }, some (usageInstructions order query "" none)), calls) ∧
    usageInstructions order query "" none =
      (":wave: Need some help with `" ++
        (if query.Get "command" ≠ "" then query.Get "command" else "/argocd") ++ "`?\n") ++
      (order.entries.map (fun e => (e.2.Execute ""
        [("cmd", if query.Get "command" ≠ "" then query.Get "command" else "/argocd")]).1
          ++ "\n")).foldr (fun a b => a ++ b) "" ∧
    order.entries.Perm commandsHelp ∧
    commandsHelp.map Prod.fst = ["list-subscriptions", "subscribe", "unsubscribe"] := by
  refine ⟨Parse_no_tokens decode order s r service query calls hq hc (Fields_nil _ ht), ?_,
    order.perm, by rfl⟩
  rw [usageInstructions_unknown order query "" none lookup_empty]
  simp

/-- C6 (as the code has it): for a verified request with a non-empty `channel_name` whose
first token is none of `list-subscriptions`, `subscribe`, `unsubscribe`, `Parse` returns
the generic usage error: the greeting line followed by the rendering of each catalog
template and a newline, in the order `order` of that call's range loop; the verb and the
later tokens do not occur in it. For a verified request with a non-empty channel, the same
`command` parameter and a text without tokens, `Parse` returns the same greeting and the
same blocks in the order `order0` of its own range loop: the blocks of the two messages
are a permutation of each other, and the two messages are identical when the two loops
visit the catalog in the same order. -/
theorem Parse_unknown_verb (decode : QueryDecoder) (order : RangeOrder) (s : slack)
    (r : Request) (service : String) (query : Values) (calls : List VerifierCall)
    (verb : String) (rest : List String)
    (hq : s.parseQuery decode r = ((service, query, none), calls))
    (hc : query.Get "channel_name" ≠ "")
    (ht : Fields (query.Get "text") = verb :: rest)
    (h1 : verb ≠ "list-subscriptions") (h2 : verb ≠ "subscribe") (h3 : verb ≠ "unsubscribe")
    (decode0 : QueryDecoder) (order0 : RangeOrder) (s0 : slack) (r0 : Request)
    (service0 : String) (query0 : Values) (calls0 : List VerifierCall)
    (hq0 : s0.parseQuery decode0 r0 = ((service0, query0, none), calls0))
    (hc0 : query0.Get "channel_name" ≠ "")
    (ht0 : Fields (query0.Get "text") = [])
    (hcmd : query0.Get "command" = query.Get "command") :
    s.Parse decode order r =
      some (({ Service := service, Recipient := query.Get "channel_name" },
        some ((":wave: Need some help with `" ++
            (if query.Get "command" ≠ "" then query.Get "command" else "/argocd") ++ "`?\n") ++
          (order.entries.map (fun e => (e.2.Execute ""
            [("cmd", if query.Get "command" ≠ "" then query.Get "command" else "/argocd")]).1
              ++ "\n")).foldr (fun a b => a ++ b) "")), calls) ∧
    s0.Parse decode0 order0 r0 =
      some (({ Service := service0 },
        some ((":wave: Need some help with `" ++
            (if query.Get "command" ≠ "" then query.Get "command" else "/argocd") ++ "`?\n") ++
          (order0.entries.map (fun e => (e.2.Execute ""
            [("cmd", if query.Get "command" ≠ "" then query.Get "command" else "/argocd")]).1
              ++ "\n")).foldr (fun a b => a ++ b) "")), calls0) ∧
    (order.entries.map (fun e => (e.2.Execute ""
        [("cmd", if query.Get "command" ≠ "" then query.Get "command" else "/argocd")]).1
          ++ "\n")).Perm
      (order0.entries.map (fun e => (e.2.Execute ""
        [("cmd", if query.Get "command" ≠ "" then query.Get "command" else "/argocd")]).1
          ++ "\n")) ∧
    (order.entries = order0.entries →
      (s.Parse decode order r).map (fun p => p.1.2) =
        (s0.Parse decode0 order0 r0).map (fun p => p.1.2)) := by
  have e1 := Parse_unknown decode order s r service query calls hq hc verb rest ht h1 h2 h3
  have e0 := Parse_no_tokens decode0 order0 s0 r0 service0 query0 calls0 hq0 hc0 ht0
  rw [usageInstructions_congr order0 query0 query "" none hcmd] at e0
  rw [usageInstructions_unknown order query "" none lookup_empty] at e1
  rw [usageInstructions_unknown order0 query "" none lookup_empty] at e0
  simp only [String.empty_append] at e1 e0
  refine ⟨e1, e0, List.Perm.map _ (order.perm.trans order0.perm.symm), ?_⟩
  intro heq
  rw [e1, e0, heq]
  rfl

/-- C6, the claim as written fails: the message for the unknown verb `Subscribe` and the
message for an empty text, from two calls whose range loops visit the catalog in different
orders, are not identical. -/
theorem Parse_unknown_verb_other_order :
    ((slack.mk acceptAll).Parse (decodeAs "body" (formValues "Subscribe foo")) sourceOrder
        (formRequest "body")).map (fun p => p.1.2) ≠
      ((slack.mk acceptAll).Parse (decodeAs "empty" (formValues "")) rotatedOrder
        (formRequest "empty")).map (fun p => p.1.2) := by
  decide

/-- C5 at a request whose text is two blanks and a tab. -/
theorem Parse_blank_text_witness :
    ((slack.mk acceptAll).parseQuery (decodeAs "body" (formValues "  \t"))
        (formRequest "body") =
      (("slack", formValues "  \t", none), [("body", (formRequest "body").Header)])) ∧
    Values.Get (formValues "  \t") "channel_name" ≠ "" ∧
    (∀ c ∈ (Values.Get (formValues "  \t") "text").data, isSpace c = true) ∧
    ((slack.mk acceptAll).Parse (decodeAs "body" (formValues "  \t")) sourceOrder
        (formRequest "body") =
      some (({ Service := "slack" },
        some (usageInstructions sourceOrder (formValues "  \t") "" none)),
        [("body", (formRequest "body").Header)]) ∧
    usageInstructions sourceOrder (formValues "  \t") "" none =
      (":wave: Need some help with `" ++
        (if Values.Get (formValues "  \t") "command" ≠ ""
          then Values.Get (formValues "  \t") "command" else "/argocd") ++ "`?\n") ++
      (sourceOrder.entries.map (fun e => (e.2.Execute ""
        [("cmd", if Values.Get (formValues "  \t") "command" ≠ ""
          then Values.Get (formValues "  \t") "command" else "/argocd")]).1
          ++ "\n")).foldr (fun a b => a ++ b) "" ∧
    sourceOrder.entries.Perm commandsHelp ∧
    commandsHelp.map Prod.fst = ["list-subscriptions", "subscribe", "unsubscribe"]) :=
  ⟨by rfl, by decide, by decide,
   Parse_blank_text (decodeAs "body" (formValues "  \t")) sourceOrder (slack.mk acceptAll)
     (formRequest "body") "slack" (formValues "  \t") [("body", (formRequest "body").Header)]
     (by rfl) (by decide) (by decide)⟩

/-- C6 at the requests `Subscribe foo` (first letter in upper case) and ``, both from
channel `general` with the same `command` parameter, under two different range orders. -/
theorem Parse_unknown_verb_witness :
    ((slack.mk acceptAll).parseQuery (decodeAs "body" (formValues "Subscribe foo"))
        (formRequest "body") =
      (("slack", formValues "Subscribe foo", none), [("body", (formRequest "body").Header)])) ∧
    Values.Get (formValues "Subscribe foo") "channel_name" ≠ "" ∧
    Fields (Values.Get (formValues "Subscribe foo") "text") = "Subscribe" :: ["foo"] ∧
    ("Subscribe" : String) ≠ "list-subscriptions" ∧ ("Subscribe" : String) ≠ "subscribe" ∧
    ("Subscribe" : String) ≠ "unsubscribe" ∧
    ((slack.mk acceptAll).parseQuery (decodeAs "empty" (formValues ""))
        (formRequest "empty") =
      (("slack", formValues "", none), [("empty", (formRequest "empty").Header)])) ∧
    Values.Get (formValues "") "channel_name" ≠ "" ∧
    Fields (Values.Get (formValues "") "text") = [] ∧
    Values.Get (formValues "") "command" = Values.Get (formValues "Subscribe foo") "command" ∧
    (sourceOrder.entries.map (fun e => (e.2.Execute ""
        [("cmd", if Values.Get (formValues "Subscribe foo") "command" ≠ ""
          then Values.Get (formValues "Subscribe foo") "command" else "/argocd")]).1
          ++ "\n")).Perm
      (rotatedOrder.entries.map (fun e => (e.2.Execute ""
        [("cmd", if Values.Get (formValues "Subscribe foo") "command" ≠ ""
          then Values.Get (formValues "Subscribe foo") "command" else "/argocd")]).1
          ++ "\n")) :=
  ⟨by rfl, by decide, by rfl, by decide, by decide, by decide, by rfl, by decide, by rfl, by rfl,
   (Parse_unknown_verb (decodeAs "body" (formValues "Subscribe foo")) sourceOrder
     (slack.mk acceptAll) (formRequest "body") "slack" (formValues "Subscribe foo")
     [("body", (formRequest "body").Header)] "Subscribe" ["foo"]
     (by rfl) (by decide) (by rfl) (by decide) (by decide) (by decide)
     (decodeAs "empty" (formValues "")) rotatedOrder (slack.mk acceptAll) (formRequest "empty")
     "slack" (formValues "") [("empty", (formRequest "empty").Header)]
     (by rfl) (by decide) (by rfl) (by rfl)).2.2.1⟩

/-- C7: for a value `v` without white space and without `:` and a trigger `t` without
white space, on a verified request with a non-empty `channel_name`: the text
`subscribe app:v t` makes `Parse` succeed with `Subscribe = {App: v, Project: "",
Trigger: t}`, and the text `subscribe app:v` (no third token) makes it succeed with
`Subscribe = {App: v, Project: "", Trigger: ""}`. -/
theorem Parse_subscribe_app (decode : QueryDecoder) (order : RangeOrder) (s : slack)
    (r : Request) (service : String) (query : Values) (calls : List VerifierCall)
    (v t : String)
    (hq : s.parseQuery decode r = ((service, query, none), calls))
    (hc : query.Get "channel_name" ≠ "")
    (hv : ∀ c ∈ v.data, isSpace c = false) (hvc : ∀ c ∈ v.data, c ≠ ':')
    (ht : ∀ c ∈ t.data, isSpace c = false) :
    (query.Get "text" = "subscribe app:" ++ v ++ " " ++ t →
      s.Parse decode order r =
        some (({ Service := service, Recipient := query.Get "channel_name",
                 Subscribe := some { App := v, Project := "", Trigger := t },
                 Unsubscribe := none, ListSubscriptions := none }, none), calls)) ∧
    (query.Get "text" = "subscribe app:" ++ v →
      s.Parse decode order r =
        some (({ Service := service, Recipient := query.Get "channel_name",
                 Subscribe := some { App := v, Project := "", Trigger := "" },
                 Unsubscribe := none, ListSubscriptions := none }, none), calls)) := by
  have hname : ∀ c ∈ ("app" ++ ":" ++ v).data, isSpace c = false :=
    noSpace_append ("app" ++ ":") v (by decide) hv
  have hne : "app" ++ ":" ++ v ≠ "" := append_ne_empty ("app" ++ ":") v (by decide)
  have hn := Split_prefixed "app" v (by decide) hvc
  obtain ⟨hf3, hf2⟩ := Fields_verb_name "subscribe" ("app" ++ ":" ++ v) t (Or.inl rfl) hname hne
  constructor
  · intro htext
    have e : query.Get "text" = "subscribe" ++ " " ++ ("app" ++ ":" ++ v ++ " " ++ t) := by
      rw [htext]; apply String.ext; simp [String.data_append]
    rw [← e] at hf3
    rw [Parse_update decode order s r service query calls hq hc "subscribe" _ _ hf3
      (Or.inl rfl) "app" v [] hn, Fields_headD t ht]
    simp
  · intro htext
    have e : query.Get "text" = "subscribe" ++ " " ++ ("app" ++ ":" ++ v) := by
      rw [htext]; apply String.ext; simp [String.data_append]
    rw [← e] at hf2
    rw [Parse_update decode order s r service query calls hq hc "subscribe" _ _ hf2
      (Or.inl rfl) "app" v [] hn]
    simp

/-- C8: for a value `v` without white space and without `:`, on a verified request with a
non-empty `channel_name`, the text `subscribe proj:v` makes `Parse` succeed with
`Subscribe = {Project: v, App: "", Trigger: ""}` and with `ListSubscriptions` and
`Unsubscribe` nil. -/
theorem Parse_subscribe_proj (decode : QueryDecoder) (order : RangeOrder) (s : slack)
    (r : Request) (service : String) (query : Values) (calls : List VerifierCall)
    (v : String)
    (hq : s.parseQuery decode r = ((service, query, none), calls))
    (hc : query.Get "channel_name" ≠ "")
    (hv : ∀ c ∈ v.data, isSpace c = false) (hvc : ∀ c ∈ v.data, c ≠ ':')
    (htext : query.Get "text" = "subscribe proj:" ++ v) :
    s.Parse decode order r =
      some (({ Service := service, Recipient := query.Get "channel_name",
               Subscribe := some { App := "", Project := v, Trigger := "" },
               Unsubscribe := none, ListSubscriptions := none }, none), calls) := by
  have hname : ∀ c ∈ ("proj" ++ ":" ++ v).data, isSpace c = false :=
    noSpace_append ("proj" ++ ":") v (by decide) hv
  have hne : "proj" ++ ":" ++ v ≠ "" := append_ne_empty ("proj" ++ ":") v (by decide)
  have hn := Split_prefixed "proj" v (by decide) hvc
  obtain ⟨-, hf2⟩ := Fields_verb_name "subscribe" ("proj" ++ ":" ++ v) "" (Or.inl rfl) hname hne
  have e : query.Get "text" = "subscribe" ++ " " ++ ("proj" ++ ":" ++ v) := by
    rw [htext]; apply String.ext; simp [String.data_append]
  rw [← e] at hf2
  rw [Parse_update decode order s r service query calls hq hc "subscribe" _ _ hf2
    (Or.inl rfl) "proj" v [] hn]
  simp

/-- C9: for a second token `n` (non-empty, without white space) that contains no `:`, on a
verified request with a non-empty `channel_name`, the text `subscribe n` makes `Parse`
succeed with `Subscribe = {App: n, Project: "", Trigger: ""}`; this includes the tokens
`app` and `proj`. -/
theorem Parse_subscribe_plain (decode : QueryDecoder) (order : RangeOrder) (s : slack)
    (r : Request) (service : String) (query : Values) (calls : List VerifierCall)
    (n : String)
    (hq : s.parseQuery decode r = ((service, query, none), calls))
    (hc : query.Get "channel_name" ≠ "")
    (hne : n ≠ "") (hn : ∀ c ∈ n.data, isSpace c = false) (hnc : ∀ c ∈ n.data, c ≠ ':')
    (htext : query.Get "text" = "subscribe " ++ n) :
    s.Parse decode order r =
      some (({ Service := service, Recipient := query.Get "channel_name",
               Subscribe := some { App := n, Project := "", Trigger := "" },
               Unsubscribe := none, ListSubscriptions := none }, none), calls) := by
  obtain ⟨-, hf2⟩ := Fields_verb_name "subscribe" n "" (Or.inl rfl) hn hne
  have e : query.Get "text" = "subscribe" ++ " " ++ n := by
    rw [htext]; apply String.ext; simp [String.data_append]
  rw [← e] at hf2
  have hsp : (if (Split n ':').length = 1 then ["app"] ++ Split n ':' else Split n ':')
      = ["app", n] := by
    rw [Split_whole n hnc]; rfl
  rw [Parse_update decode order s r service query calls hq hc "subscribe" _ _ hf2
    (Or.inl rfl) "app" n [] hsp]
  simp

/-- C10: for a second token `kind:value` (without white space) whose `kind`, the part
before the first `:`, is neither `app` nor `proj`, on a verified request with a non-empty
`channel_name`, the text `verb kind:value` with `verb` one of `subscribe`, `unsubscribe`
makes `Parse` return the error "incorrect name argument: " followed by the whole token, a
newline, and the rendering of the usage template of `verb` alone. -/
theorem Parse_incorrect_name (decode : QueryDecoder) (order : RangeOrder) (s : slack)
    (r : Request) (service : String) (query : Values) (calls : List VerifierCall)
    (verb kind value : String)
    (hq : s.parseQuery decode r = ((service, query, none), calls))
    (hc : query.Get "channel_name" ≠ "")
    (hverb : verb = "subscribe" ∨ verb = "unsubscribe")
    (hk : ∀ c ∈ kind.data, isSpace c = false) (hkc : ∀ c ∈ kind.data, c ≠ ':')
    (hv : ∀ c ∈ value.data, isSpace c = false)
    (hka : kind ≠ "app") (hkp : kind ≠ "proj")
    (htext : query.Get "text" = verb ++ " " ++ (kind ++ ":" ++ value)) :
    ∃ tmpl, commandsHelp.lookup verb = some tmpl ∧
      s.Parse decode order r =
        some (({ Service := service, Recipient := query.Get "channel_name" },
          some ("incorrect name argument: " ++ (kind ++ ":" ++ value) ++ "\n" ++
            (tmpl.Execute "" [("cmd",
              if query.Get "command" ≠ "" then query.Get "command" else "/argocd")]).1)),
          calls) := by
  have hname : ∀ c ∈ (kind ++ ":" ++ value).data, isSpace c = false :=
    noSpace_append (kind ++ ":") value (noSpace_append kind ":" hk (by decide)) hv
  have hne : kind ++ ":" ++ value ≠ "" := by
    intro h
    have h2 := congrArg String.data h
    simp [String.data_append] at h2
  obtain ⟨-, hf2⟩ := Fields_verb_name verb (kind ++ ":" ++ value) "" hverb hname hne
  rw [← htext] at hf2
  have hsp : ∃ v0 tl, (if (Split (kind ++ ":" ++ value) ':').length = 1
      then ["app"] ++ Split (kind ++ ":" ++ value) ':' else Split (kind ++ ":" ++ value) ':')
      = kind :: v0 :: tl := by
    rw [Split_kind kind value hkc]
    rcases hs : Split value ':' with _ | ⟨v0, tl⟩
    · exact absurd hs (Split_ne_nil value ':')
    · exact ⟨v0, tl, by simp⟩
  obtain ⟨v0, tl, hsp⟩ := hsp
  have hlk : ∃ tmpl, commandsHelp.lookup verb = some tmpl := by
    rcases hverb with h | h <;> subst h <;> exact ⟨_, rfl⟩
  obtain ⟨tmpl, hlk⟩ := hlk
  refine ⟨tmpl, hlk, ?_⟩
  rw [Parse_update decode order s r service query calls hq hc verb _ _ hf2 hverb kind v0 tl hsp,
    usageInstructions_known order query verb _ tmpl hlk]
  simp [hka, hkp, String.append_assoc]

/-- C7 at `subscribe app:foo bar` and at `subscribe app:foo`. -/
theorem Parse_subscribe_app_witness :
    ((slack.mk acceptAll).parseQuery (decodeAs "body" (formValues "subscribe app:foo bar"))
        (formRequest "body") =
      (("slack", formValues "subscribe app:foo bar", none),
        [("body", (formRequest "body").Header)])) ∧
    ((slack.mk acceptAll).parseQuery (decodeAs "short" (formValues "subscribe app:foo"))
        (formRequest "short") =
      (("slack", formValues "subscribe app:foo", none),
        [("short", (formRequest "short").Header)])) ∧
    Values.Get (formValues "subscribe app:foo bar") "channel_name" ≠ "" ∧
    Values.Get (formValues "subscribe app:foo") "channel_name" ≠ "" ∧
    (∀ c ∈ ("foo" : String).data, isSpace c = false) ∧
    (∀ c ∈ ("foo" : String).data, c ≠ ':') ∧
    (∀ c ∈ ("bar" : String).data, isSpace c = false) ∧
    Values.Get (formValues "subscribe app:foo bar") "text" = "subscribe app:" ++ "foo" ++ " " ++ "bar" ∧
    Values.Get (formValues "subscribe app:foo") "text" = "subscribe app:" ++ "foo" ∧
    (slack.mk acceptAll).Parse (decodeAs "body" (formValues "subscribe app:foo bar")) sourceOrder
        (formRequest "body") =
      some (({ Service := "slack",
               Recipient := Values.Get (formValues "subscribe app:foo bar") "channel_name",
               Subscribe := some { App := "foo", Project := "", Trigger := "bar" },
               Unsubscribe := none, ListSubscriptions := none }, none),
        [("body", (formRequest "body").Header)]) ∧
    (slack.mk acceptAll).Parse (decodeAs "short" (formValues "subscribe app:foo")) sourceOrder
        (formRequest "short") =
      some (({ Service := "slack",
               Recipient := Values.Get (formValues "subscribe app:foo") "channel_name",
               Subscribe := some { App := "foo", Project := "", Trigger := "" },
               Unsubscribe := none, ListSubscriptions := none }, none),
        [("short", (formRequest "short").Header)]) :=
  ⟨by rfl, by rfl, by decide, by decide, by decide, by decide, by decide, by decide, by decide,
   (Parse_subscribe_app (decodeAs "body" (formValues "subscribe app:foo bar")) sourceOrder
     (slack.mk acceptAll) (formRequest "body") "slack" (formValues "subscribe app:foo bar")
     [("body", (formRequest "body").Header)] "foo" "bar"
     (by rfl) (by decide) (by decide) (by decide) (by decide)).1 (by decide),
   (Parse_subscribe_app (decodeAs "short" (formValues "subscribe app:foo")) sourceOrder
     (slack.mk acceptAll) (formRequest "short") "slack" (formValues "subscribe app:foo")
     [("short", (formRequest "short").Header)] "foo" "bar"
     (by rfl) (by decide) (by decide) (by decide) (by decide)).2 (by decide)⟩

/-- C8 at `subscribe proj:bar`. -/
theorem Parse_subscribe_proj_witness :
    ((slack.mk acceptAll).parseQuery (decodeAs "body" (formValues "subscribe proj:bar"))
        (formRequest "body") =
      (("slack", formValues "subscribe proj:bar", none),
        [("body", (formRequest "body").Header)])) ∧
    Values.Get (formValues "subscribe proj:bar") "channel_name" ≠ "" ∧
    (∀ c ∈ ("bar" : String).data, isSpace c = false) ∧
    (∀ c ∈ ("bar" : String).data, c ≠ ':') ∧
    Values.Get (formValues "subscribe proj:bar") "text" = "subscribe proj:" ++ "bar" ∧
    (slack.mk acceptAll).Parse (decodeAs "body" (formValues "subscribe proj:bar")) sourceOrder
        (formRequest "body") =
      some (({ Service := "slack",
               Recipient := Values.Get (formValues "subscribe proj:bar") "channel_name",
               Subscribe := some { App := "", Project := "bar", Trigger := "" },
               Unsubscribe := none, ListSubscriptions := none }, none),
        [("body", (formRequest "body").Header)]) :=
  ⟨by rfl, by decide, by decide, by decide, by decide,
   Parse_subscribe_proj (decodeAs "body" (formValues "subscribe proj:bar")) sourceOrder
     (slack.mk acceptAll) (formRequest "body") "slack" (formValues "subscribe proj:bar")
     [("body", (formRequest "body").Header)] "bar"
     (by rfl) (by decide) (by decide) (by decide) (by decide)⟩

/-- C9 at `subscribe foo`, and at `subscribe proj` where the colon-free token is the word
`proj`. -/
theorem Parse_subscribe_plain_witness :
    ((slack.mk acceptAll).parseQuery (decodeAs "body" (formValues "subscribe foo"))
        (formRequest "body") =
      (("slack", formValues "subscribe foo", none),
        [("body", (formRequest "body").Header)])) ∧
    Values.Get (formValues "subscribe foo") "channel_name" ≠ "" ∧
    ("foo" : String) ≠ "" ∧
    (∀ c ∈ ("foo" : String).data, isSpace c = false) ∧
    (∀ c ∈ ("foo" : String).data, c ≠ ':') ∧
    Values.Get (formValues "subscribe foo") "text" = "subscribe " ++ "foo" ∧
    (slack.mk acceptAll).Parse (decodeAs "body" (formValues "subscribe foo")) sourceOrder
        (formRequest "body") =
      some (({ Service := "slack",
               Recipient := Values.Get (formValues "subscribe foo") "channel_name",
               Subscribe := some { App := "foo", Project := "", Trigger := "" },
               Unsubscribe := none, ListSubscriptions := none }, none),
        [("body", (formRequest "body").Header)]) ∧
    (slack.mk acceptAll).Parse (decodeAs "body" (formValues "subscribe proj")) sourceOrder
        (formRequest "body") =
      some (({ Service := "slack",
               Recipient := Values.Get (formValues "subscribe proj") "channel_name",
               Subscribe := some { App := "proj", Project := "", Trigger := "" },
               Unsubscribe := none, ListSubscriptions := none }, none),
        [("body", (formRequest "body").Header)]) :=
  ⟨by rfl, by decide, by decide, by decide, by decide, by decide,
   Parse_subscribe_plain (decodeAs "body" (formValues "subscribe foo")) sourceOrder
     (slack.mk acceptAll) (formRequest "body") "slack" (formValues "subscribe foo")
     [("body", (formRequest "body").Header)] "foo"
     (by rfl) (by decide) (by decide) (by decide) (by decide) (by decide),
   Parse_subscribe_plain (decodeAs "body" (formValues "subscribe proj")) sourceOrder
     (slack.mk acceptAll) (formRequest "body") "slack" (formValues "subscribe proj")
     [("body", (formRequest "body").Header)] "proj"
     (by rfl) (by decide) (by decide) (by decide) (by decide) (by decide)⟩

/-- C10 at `unsubscribe App:foo`, whose kind `App` differs from `app` by case. -/
theorem Parse_incorrect_name_witness :
    ((slack.mk acceptAll).parseQuery (decodeAs "body" (formValues "unsubscribe App:foo"))
        (formRequest "body") =
      (("slack", formValues "unsubscribe App:foo", none),
        [("body", (formRequest "body").Header)])) ∧
    Values.Get (formValues "unsubscribe App:foo") "channel_name" ≠ "" ∧
    (("unsubscribe" : String) = "subscribe" ∨ ("unsubscribe" : String) = "unsubscribe") ∧
    (∀ c ∈ ("App" : String).data, isSpace c = false) ∧
    (∀ c ∈ ("App" : String).data, c ≠ ':') ∧
    (∀ c ∈ ("foo" : String).data, isSpace c = false) ∧
    ("App" : String) ≠ "app" ∧ ("App" : String) ≠ "proj" ∧
    Values.Get (formValues "unsubscribe App:foo") "text"
      = "unsubscribe" ++ " " ++ ("App" ++ ":" ++ "foo") ∧
    ∃ tmpl, commandsHelp.lookup "unsubscribe" = some tmpl ∧
      (slack.mk acceptAll).Parse (decodeAs "body" (formValues "unsubscribe App:foo"))
          sourceOrder (formRequest "body") =
        some (({ Service := "slack",
                 Recipient := Values.Get (formValues "unsubscribe App:foo") "channel_name" },
          some ("incorrect name argument: " ++ ("App" ++ ":" ++ "foo") ++ "\n" ++
            (tmpl.Execute "" [("cmd",
              if Values.Get (formValues "unsubscribe App:foo") "command" ≠ ""
                then Values.Get (formValues "unsubscribe App:foo") "command"
                else "/argocd")]).1)),
          [("body", (formRequest "body").Header)]) :=
  ⟨by rfl, by decide, by decide, by decide, by decide, by decide, by decide, by decide,
   by decide,
   Parse_incorrect_name (decodeAs "body" (formValues "unsubscribe App:foo")) sourceOrder
     (slack.mk acceptAll) (formRequest "body") "slack" (formValues "unsubscribe App:foo")
     [("body", (formRequest "body").Header)] "unsubscribe" "App" "foo"
     (by rfl) (by decide) (by decide) (by decide) (by decide) (by decide) (by decide)
     (by decide) (by decide)⟩

theorem fieldsAux_sep (l : List Char) (c : Char) (hc : isSpace c = true)
    (rest cur : List Char) :
    fieldsAux (l ++ c :: rest) cur = fieldsAux l cur ++ fieldsAux rest [] := by
  induction l generalizing cur with
  | nil =>
    by_cases h : cur = [] <;> simp [fieldsAux, hc, h]
  | cons d l ih =>
    by_cases hd : isSpace d = true
    · by_cases h : cur = [] <;> simp [fieldsAux, hd, h, ih]
    · simp [fieldsAux, hd, ih]

theorem Fields_sep (a ws b : String) (hws : ∀ c ∈ ws.data, isSpace c = true)
    (hne : ws ≠ "") : Fields (a ++ ws ++ b) = Fields a ++ Fields b := by
  rcases hw : ws.data with _ | ⟨c, ws2⟩
  · exact absurd (String.ext hw) hne
  · have hc : isSpace c = true := hws c (by rw [hw]; exact List.mem_cons_self _ _)
    have hws2 : ∀ d ∈ ws2, isSpace d = true :=
      fun d hd => hws d (by rw [hw]; exact List.mem_cons_of_mem _ hd)
    simp only [Fields, String.data_append, hw]
    rw [List.append_assoc, List.cons_append, fieldsAux_sep a.data c hc,
      fieldsAux_spaces ws2 hws2]
    simp

theorem Fields_lead (ws b : String) (hws : ∀ c ∈ ws.data, isSpace c = true) :
    Fields (ws ++ b) = Fields b := by
  simp only [Fields, String.data_append]
  rw [fieldsAux_spaces ws.data hws]

theorem Fields_trail (a ws : String) (hws : ∀ c ∈ ws.data, isSpace c = true) :
    Fields (a ++ ws) = Fields a := by
  by_cases hne : ws = ""
  · subst hne; simp
  · have h := Fields_sep a ws "" hws hne
    have e : Fields "" = [] := rfl
    simp only [String.append_empty, e, List.append_nil] at h
    exact h

theorem Fields_padded (ws1 verb ws2 : String) (hws1 : ∀ c ∈ ws1.data, isSpace c = true)
    (hws2 : ∀ c ∈ ws2.data, isSpace c = true)
    (hverb : ∀ c ∈ verb.data, isSpace c = false) (hne : verb ≠ "") :
    Fields (ws1 ++ verb ++ ws2) = [verb] := by
  rw [Fields_trail (ws1 ++ verb) ws2 hws2, Fields_lead ws1 verb hws1,
    Fields_last verb hverb hne]

/-- C11: for a verified request with a non-empty `channel_name` whose text is the single
token `subscribe` or `unsubscribe`, with any white space before and after it, `Parse`
returns the error "at least one argument expected", a newline, and the rendering of the
usage template of that command alone. -/
theorem Parse_missing_argument (decode : QueryDecoder) (order : RangeOrder) (s : slack)
    (r : Request) (service : String) (query : Values) (calls : List VerifierCall)
    (verb ws1 ws2 : String)
    (hq : s.parseQuery decode r = ((service, query, none), calls))
    (hc : query.Get "channel_name" ≠ "")
    (hverb : verb = "subscribe" ∨ verb = "unsubscribe")
    (hws1 : ∀ c ∈ ws1.data, isSpace c = true) (hws2 : ∀ c ∈ ws2.data, isSpace c = true)
    (htext : query.Get "text" = ws1 ++ verb ++ ws2) :
    ∃ tmpl, commandsHelp.lookup verb = some tmpl ∧
      s.Parse decode order r =
        some (({ Service := service, Recipient := query.Get "channel_name" },
          some ("at least one argument expected" ++ "\n" ++
            (tmpl.Execute "" [("cmd",
              if query.Get "command" ≠ "" then query.Get "command" else "/argocd")]).1)),
          calls) := by
  have hvs : ∀ c ∈ verb.data, isSpace c = false := by
    rcases hverb with h | h <;> subst h <;> decide
  have hvne : verb ≠ "" := by
    rcases hverb with h | h <;> subst h <;> decide
  have hf : Fields (query.Get "text") = [verb] := by
    rw [htext]; exact Fields_padded ws1 verb ws2 hws1 hws2 hvs hvne
  have hlk : ∃ tmpl, commandsHelp.lookup verb = some tmpl := by
    rcases hverb with h | h <;> subst h <;> exact ⟨_, rfl⟩
  obtain ⟨tmpl, hlk⟩ := hlk
  refine ⟨tmpl, hlk, ?_⟩
  rw [Parse_one_token decode order s r service query calls hq hc verb hf hverb,
    usageInstructions_known order query verb _ tmpl hlk]

/-- C11 at the text ` unsubscribe` followed by a tab. -/
theorem Parse_missing_argument_witness :
    ((slack.mk acceptAll).parseQuery (decodeAs "body" (formValues " unsubscribe\t"))
        (formRequest "body") =
      (("slack", formValues " unsubscribe\t", none),
        [("body", (formRequest "body").Header)])) ∧
    Values.Get (formValues " unsubscribe\t") "channel_name" ≠ "" ∧
    (("unsubscribe" : String) = "subscribe" ∨ ("unsubscribe" : String) = "unsubscribe") ∧
    (∀ c ∈ (" " : String).data, isSpace c = true) ∧
    (∀ c ∈ ("\t" : String).data, isSpace c = true) ∧
    Values.Get (formValues " unsubscribe\t") "text" = " " ++ "unsubscribe" ++ "\t" ∧
    ∃ tmpl, commandsHelp.lookup "unsubscribe" = some tmpl ∧
      (slack.mk acceptAll).Parse (decodeAs "body" (formValues " unsubscribe\t"))
          sourceOrder (formRequest "body") =
        some (({ Service := "slack",
                 Recipient := Values.Get (formValues " unsubscribe\t") "channel_name" },
          some ("at least one argument expected" ++ "\n" ++
            (tmpl.Execute "" [("cmd",
              if Values.Get (formValues " unsubscribe\t") "command" ≠ ""
                then Values.Get (formValues " unsubscribe\t") "command"
                else "/argocd")]).1)),
          [("body", (formRequest "body").Header)]) :=
  ⟨by rfl, by decide, by decide, by decide, by decide, by decide,
   Parse_missing_argument (decodeAs "body" (formValues " unsubscribe\t")) sourceOrder
     (slack.mk acceptAll) (formRequest "body") "slack" (formValues " unsubscribe\t")
     [("body", (formRequest "body").Header)] "unsubscribe" " " "\t"
     (by rfl) (by decide) (by decide) (by decide) (by decide) (by decide)⟩

theorem parseQuery_ok (decode : QueryDecoder) (s : slack) (r : Request)
    (data service : String) (query : Values)
    (hb : r.Body = .ok data) (hv : s.verifier data r.Header = (service, none))
    (hd : decode data = (query, none)) :
    s.parseQuery decode r = ((service, query, none), [(data, r.Header)]) := by
  simp [slack.parseQuery, ReadAll, hb, hv, hd]

theorem lookup_other (name : String) (h1 : name ≠ "list-subscriptions")
    (h2 : name ≠ "subscribe") (h3 : name ≠ "unsubscribe") :
    commandsHelp.lookup name = none := by
  have b1 : (name == "list-subscriptions") = false := beq_eq_false_iff_ne.mpr h1
  have b2 : (name == "subscribe") = false := beq_eq_false_iff_ne.mpr h2
  have b3 : (name == "unsubscribe") = false := beq_eq_false_iff_ne.mpr h3
  simp [commandsHelp, List.lookup, b1, b2, b3]

theorem lookup_known (name : String)
    (h : name = "list-subscriptions" ∨ name = "subscribe" ∨ name = "unsubscribe") :
    ∃ tmpl, commandsHelp.lookup name = some tmpl := by
  rcases h with h | h | h <;> subst h <;> exact ⟨_, rfl⟩

theorem lookup_entry (e : String × Template) (h : e ∈ commandsHelp) :
    commandsHelp.lookup e.1 = some e.2 := by
  simp only [commandsHelp, List.mem_cons, List.mem_singleton, List.not_mem_nil, or_false] at h
  rcases h with h | h | h <;> subst h <;> rfl

/-- C12: on a request whose body reads as `data`, whose verifier accepts it with identity
`service` and whose body decodes to `query`: if `channel_name` is non-empty and the first
token of `text` is `list-subscriptions`, `Parse` succeeds, whatever tokens follow, with
`ListSubscriptions` populated, `Subscribe` and `Unsubscribe` nil, `Recipient` the channel
and `Service` the identity; and every successful result of `Parse` has `Recipient` equal to
`channel_name` and `Service` equal to the verifier's identity. -/
theorem Parse_list_subscriptions (decode : QueryDecoder) (order : RangeOrder) (s : slack)
    (r : Request) (data service : String) (query : Values)
    (hb : r.Body = .ok data) (hv : s.verifier data r.Header = (service, none))
    (hd : decode data = (query, none)) :
    (query.Get "channel_name" ≠ "" →
      ∀ rest, Fields (query.Get "text") = "list-subscriptions" :: rest →
        s.Parse decode order r =
          some (({ Service := service, Recipient := query.Get "channel_name",
                   Subscribe := none, Unsubscribe := none,
                   ListSubscriptions := some {} }, none), [(data, r.Header)])) ∧
    (∀ cmd calls, s.Parse decode order r = some ((cmd, none), calls) →
      cmd.Recipient = query.Get "channel_name" ∧ cmd.Service = service) := by
  have hq := parseQuery_ok decode s r data service query hb hv hd
  constructor
  · intro hc rest ht
    exact Parse_list decode order s r service query _ hq hc rest ht
  · intro cmd calls h
    obtain ⟨-, -, -, hcases⟩ :=
      Parse_success_cases decode order s r service query none _ calls cmd hq h
    rcases hcases with ⟨rest, -, hcmd⟩ | ⟨verb, name, rest, kind, value, tl, -, -, -, -, hcmd⟩
    · subst hcmd; exact ⟨rfl, rfl⟩
    · subst hcmd; exact ⟨rfl, rfl⟩

/-- C13: with no prior error, `usageInstructions` for one of the three catalog names
returns exactly the rendering of the template of that name; for any other name (the empty
name included) it returns the greeting line followed by the rendering of every catalog
template, each followed by a newline, the templates being visited once each (the visited
entries are a permutation of the catalog, whose three names are distinct). -/
theorem usageInstructions_by_name (order : RangeOrder) (query : Values) (name : String) :
    ((name = "list-subscriptions" ∨ name = "subscribe" ∨ name = "unsubscribe") →
      ∃ tmpl, commandsHelp.lookup name = some tmpl ∧
        usageInstructions order query name none =
          (tmpl.Execute "" [("cmd",
            if query.Get "command" ≠ "" then query.Get "command" else "/argocd")]).1) ∧
    (¬ (name = "list-subscriptions" ∨ name = "subscribe" ∨ name = "unsubscribe") →
      usageInstructions order query name none =
        (":wave: Need some help with `" ++
          (if query.Get "command" ≠ "" then query.Get "command" else "/argocd") ++ "`?\n") ++
        (order.entries.map (fun e => (e.2.Execute ""
          [("cmd", if query.Get "command" ≠ "" then query.Get "command" else "/argocd")]).1
            ++ "\n")).foldr (fun a b => a ++ b) "" ∧
      order.entries.Perm commandsHelp ∧
      commandsHelp.map Prod.fst = ["list-subscriptions", "subscribe", "unsubscribe"] ∧
      (commandsHelp.map Prod.fst).Nodup) := by
  constructor
  · intro h
    obtain ⟨tmpl, hlk⟩ := lookup_known name h
    refine ⟨tmpl, hlk, ?_⟩
    rw [usageInstructions_known order query name none tmpl hlk]
    simp
  · intro h
    have h1 : name ≠ "list-subscriptions" := fun e => h (Or.inl e)
    have h2 : name ≠ "subscribe" := fun e => h (Or.inr (Or.inl e))
    have h3 : name ≠ "unsubscribe" := fun e => h (Or.inr (Or.inr e))
    refine ⟨?_, order.perm, by rfl, by decide⟩
    rw [usageInstructions_unknown order query name none (lookup_other name h1 h2 h3)]
    simp

/-- C13 at the names `subscribe` and `help`. -/
theorem usageInstructions_by_name_witness :
    (("subscribe" : String) = "list-subscriptions" ∨ ("subscribe" : String) = "subscribe" ∨
      ("subscribe" : String) = "unsubscribe") ∧
    (∃ tmpl, commandsHelp.lookup "subscribe" = some tmpl ∧
        usageInstructions sourceOrder (formValues "") "subscribe" none =
          (tmpl.Execute "" [("cmd",
            if Values.Get (formValues "") "command" ≠ ""
              then Values.Get (formValues "") "command" else "/argocd")]).1) ∧
    ¬ (("help" : String) = "list-subscriptions" ∨ ("help" : String) = "subscribe" ∨
      ("help" : String) = "unsubscribe") ∧
    (usageInstructions sourceOrder (formValues "") "help" none =
        (":wave: Need some help with `" ++
          (if Values.Get (formValues "") "command" ≠ ""
            then Values.Get (formValues "") "command" else "/argocd") ++ "`?\n") ++
        (sourceOrder.entries.map (fun e => (e.2.Execute ""
          [("cmd", if Values.Get (formValues "") "command" ≠ ""
            then Values.Get (formValues "") "command" else "/argocd")]).1
            ++ "\n")).foldr (fun a b => a ++ b) "" ∧
      sourceOrder.entries.Perm commandsHelp ∧
      commandsHelp.map Prod.fst = ["list-subscriptions", "subscribe", "unsubscribe"] ∧
      (commandsHelp.map Prod.fst).Nodup) :=
  ⟨by decide,
   (usageInstructions_by_name sourceOrder (formValues "") "subscribe").1 (by decide),
   by decide,
   (usageInstructions_by_name sourceOrder (formValues "") "help").2 (by decide)⟩

/-- C14 (as the code has it): for a non-nil prior error `e`, `usageInstructions(query,
name, e)` is the message of `e`, one newline, and then the usage text for a nil error. For
a catalog name that text is the one template, so the text equals `e`, a newline and
`usageInstructions(query, name, nil)` for any two calls. For any other name the text after
the newline is the greeting and the template blocks in the order `order1` of that call's
range loop, while a call `usageInstructions(query, name, nil)` gives the same greeting and
blocks in the order `order2` of its own loop (the blocks are a permutation of each other);
the equation holds when both loops visit the catalog in the same order. With a nil prior
error nothing is prepended. -/
theorem usageInstructions_prior_error (order1 order2 : RangeOrder) (query : Values)
    (name e : String) :
    ((name = "list-subscriptions" ∨ name = "subscribe" ∨ name = "unsubscribe") →
      usageInstructions order1 query name (some e) =
        e ++ "\n" ++ usageInstructions order2 query name none) ∧
    (¬ (name = "list-subscriptions" ∨ name = "subscribe" ∨ name = "unsubscribe") →
      usageInstructions order1 query name (some e) =
        e ++ "\n" ++ ((":wave: Need some help with `" ++
            (if query.Get "command" ≠ "" then query.Get "command" else "/argocd") ++ "`?\n") ++
          (order1.entries.map (fun x => (x.2.Execute ""
            [("cmd", if query.Get "command" ≠ "" then query.Get "command" else "/argocd")]).1
              ++ "\n")).foldr (fun a b => a ++ b) "") ∧
      usageInstructions order2 query name none =
        (":wave: Need some help with `" ++
            (if query.Get "command" ≠ "" then query.Get "command" else "/argocd") ++ "`?\n") ++
          (order2.entries.map (fun x => (x.2.Execute ""
            [("cmd", if query.Get "command" ≠ "" then query.Get "command" else "/argocd")]).1
              ++ "\n")).foldr (fun a b => a ++ b) "" ∧
      (order1.entries.map (fun x => (x.2.Execute ""
          [("cmd", if query.Get "command" ≠ "" then query.Get "command" else "/argocd")]).1
            ++ "\n")).Perm
        (order2.entries.map (fun x => (x.2.Execute ""
          [("cmd", if query.Get "command" ≠ "" then query.Get "command" else "/argocd")]).1
            ++ "\n"))) ∧
    (order1.entries = order2.entries →
      usageInstructions order1 query name (some e) =
        e ++ "\n" ++ usageInstructions order2 query name none) ∧
    usageInstructions order2 query name none =
      (match commandsHelp.lookup name with
      | some tmpl =>
        (tmpl.Execute "" [("cmd",
          if query.Get "command" ≠ "" then query.Get "command" else "/argocd")]).1
      | none =>
        (":wave: Need some help with `" ++
          (if query.Get "command" ≠ "" then query.Get "command" else "/argocd") ++ "`?\n") ++
        (order2.entries.map (fun x => (x.2.Execute ""
          [("cmd", if query.Get "command" ≠ "" then query.Get "command" else "/argocd")]).1
            ++ "\n")).foldr (fun a b => a ++ b) "") := by
  refine ⟨?_, ?_, ?_, ?_⟩
  · intro h
    obtain ⟨tmpl, hlk⟩ := lookup_known name h
    rw [usageInstructions_known order1 query name (some e) tmpl hlk,
      usageInstructions_known order2 query name none tmpl hlk]
    simp [String.append_assoc]
  · intro h
    have h1 : name ≠ "list-subscriptions" := fun x => h (Or.inl x)
    have h2 : name ≠ "subscribe" := fun x => h (Or.inr (Or.inl x))
    have h3 : name ≠ "unsubscribe" := fun x => h (Or.inr (Or.inr x))
    have hlk := lookup_other name h1 h2 h3
    refine ⟨?_, ?_, List.Perm.map _ (order1.perm.trans order2.perm.symm)⟩
    · rw [usageInstructions_unknown order1 query name (some e) hlk]
      simp [String.append_assoc]
    · rw [usageInstructions_unknown order2 query name none hlk]
      simp [String.append_assoc]
  · intro heq
    rcases hlk : commandsHelp.lookup name with _ | tmpl
    · rw [usageInstructions_unknown order1 query name (some e) hlk,
        usageInstructions_unknown order2 query name none hlk, heq]
      simp [String.append_assoc]
    · rw [usageInstructions_known order1 query name (some e) tmpl hlk,
        usageInstructions_known order2 query name none tmpl hlk]
      simp [String.append_assoc]
  · rcases hlk : commandsHelp.lookup name with _ | tmpl
    · rw [usageInstructions_unknown order2 query name none hlk]
      simp [String.append_assoc]
    · rw [usageInstructions_known order2 query name none tmpl hlk]
      simp [String.append_assoc]

/-- C14, the claim as written fails: for the name `help`, outside the catalog, the text
with the prior error `boom` from a call whose range loop takes the source order is not
`boom`, a newline and the text of a call whose loop takes another order. -/
theorem usageInstructions_prior_error_other_order :
    usageInstructions sourceOrder (formValues "") "help" (some "boom") ≠
      "boom" ++ "\n" ++ usageInstructions rotatedOrder (formValues "") "help" none := by
  decide

/-- C14 at the catalog name `subscribe` and at the name `help`, under two different range
orders. -/
theorem usageInstructions_prior_error_witness :
    (("subscribe" : String) = "list-subscriptions" ∨ ("subscribe" : String) = "subscribe" ∨
      ("subscribe" : String) = "unsubscribe") ∧
    usageInstructions sourceOrder (formValues "") "subscribe" (some "boom") =
      "boom" ++ "\n" ++ usageInstructions rotatedOrder (formValues "") "subscribe" none ∧
    ¬ (("help" : String) = "list-subscriptions" ∨ ("help" : String) = "subscribe" ∨
      ("help" : String) = "unsubscribe") ∧
    (sourceOrder.entries.map (fun x => (x.2.Execute ""
        [("cmd", if Values.Get (formValues "") "command" ≠ ""
          then Values.Get (formValues "") "command" else "/argocd")]).1 ++ "\n")).Perm
      (rotatedOrder.entries.map (fun x => (x.2.Execute ""
        [("cmd", if Values.Get (formValues "") "command" ≠ ""
          then Values.Get (formValues "") "command" else "/argocd")]).1 ++ "\n")) :=
  ⟨by decide,
   (usageInstructions_prior_error sourceOrder rotatedOrder (formValues "") "subscribe"
     "boom").1 (by decide),
   by decide,
   ((usageInstructions_prior_error sourceOrder rotatedOrder (formValues "") "help"
     "boom").2.1 (by decide)).2.2⟩

/-- C12 at the request `list-subscriptions now please` from channel `general`. -/
theorem Parse_list_subscriptions_witness :
    (formRequest "body").Body = .ok "body" ∧
    (slack.mk acceptAll).verifier "body" (formRequest "body").Header = ("slack", none) ∧
    decodeAs "body" (formValues "list-subscriptions now please") "body"
      = (formValues "list-subscriptions now please", none) ∧
    Values.Get (formValues "list-subscriptions now please") "channel_name" ≠ "" ∧
    Fields (Values.Get (formValues "list-subscriptions now please") "text")
      = "list-subscriptions" :: ["now", "please"] ∧
    (slack.mk acceptAll).Parse (decodeAs "body" (formValues "list-subscriptions now please"))
        sourceOrder (formRequest "body") =
      some (({ Service := "slack",
               Recipient := Values.Get (formValues "list-subscriptions now please")
                 "channel_name",
               Subscribe := none, Unsubscribe := none,
               ListSubscriptions := some {} }, none),
        [("body", (formRequest "body").Header)]) ∧
    (listNowPlease.Recipient
        = Values.Get (formValues "list-subscriptions now please") "channel_name" ∧
      listNowPlease.Service = "slack") :=
  ⟨rfl, rfl, by rfl, by decide, by rfl,
   (Parse_list_subscriptions (decodeAs "body" (formValues "list-subscriptions now please"))
     sourceOrder (slack.mk acceptAll) (formRequest "body") "body" "slack"
     (formValues "list-subscriptions now please") rfl rfl (by rfl)).1 (by decide)
     ["now", "please"] (by rfl),
   (Parse_list_subscriptions (decodeAs "body" (formValues "list-subscriptions now please"))
     sourceOrder (slack.mk acceptAll) (formRequest "body") "body" "slack"
     (formValues "list-subscriptions now please") rfl rfl (by rfl)).2 listNowPlease
     [("body", (formRequest "body").Header)] (by rfl)⟩

theorem render_list (d : String) :
    ∃ tmpl, commandsHelp.lookup "list-subscriptions" = some tmpl ∧
      (tmpl.Execute "" [("cmd", d)]).1 =
        "*List your subscriptions*:\n```" ++ d ++ " list-subscriptions```" := by
  refine ⟨⟨[Node.text "*List your subscriptions*:\n```", Node.field "cmd",
    Node.text " list-subscriptions```"]⟩, by rfl, ?_⟩
  simp [Template.Execute, List.lookup]

theorem render_subscribe (d : String) :
    ∃ tmpl, commandsHelp.lookup "subscribe" = some tmpl ∧
      (tmpl.Execute "" [("cmd", d)]).1 =
        "*Subscribe current channel*:\n```" ++ d ++
          " subscribe <my-app> <optional-trigger>\n" ++ d ++
          " subscribe proj:<my-proj> <optional-trigger>```" := by
  refine ⟨⟨[Node.text "*Subscribe current channel*:\n```", Node.field "cmd",
    Node.text " subscribe <my-app> <optional-trigger>\n", Node.field "cmd",
    Node.text " subscribe proj:<my-proj> <optional-trigger>```"]⟩, by rfl, ?_⟩
  simp [Template.Execute, List.lookup]

theorem render_unsubscribe (d : String) :
    ∃ tmpl, commandsHelp.lookup "unsubscribe" = some tmpl ∧
      (tmpl.Execute "" [("cmd", d)]).1 =
        "*Unsubscribe current channel*:\n```" ++ d ++
          " unsubscribe <my-app> <optional-trigger>\n" ++ d ++
          " unsubscribe proj:<my-proj> <optional-trigger>```" := by
  refine ⟨⟨[Node.text "*Unsubscribe current channel*:\n```", Node.field "cmd",
    Node.text " unsubscribe <my-app> <optional-trigger>\n", Node.field "cmd",
    Node.text " unsubscribe proj:<my-proj> <optional-trigger>```"]⟩, by rfl, ?_⟩
  simp [Template.Execute, List.lookup]

theorem botCommand_eq (query : Values) (d : String)
    (hd : (∃ c tl, query.lookup "command" = some (c :: tl) ∧ c ≠ "" ∧ d = c) ∨
      ((query.lookup "command" = none ∨ query.Get "command" = "") ∧ d = "/argocd")) :
    (if query.Get "command" ≠ "" then query.Get "command" else "/argocd") = d := by
  rcases hd with ⟨c, tl, hl, hc, rfl⟩ | ⟨h, rfl⟩
  · have : query.Get "command" = d := by simp [Values.Get, hl]
    simp [this, hc]
  · have : query.Get "command" = "" := by
      rcases h with h | h
      · simp [Values.Get, h]
      · exact h
    simp [this]

/-- C15: the display name `d` is the first value of the `command` query parameter when
that value is non-empty, and `/argocd` when the parameter is absent or its first value is
empty. The usage text of each catalog name is the template text with `d` in place of every
`{{.cmd}}`, verbatim; the generic listing is the greeting with `d` between the backquotes,
followed by those usage texts (in range order), each followed by a newline. -/
theorem usageInstructions_display_name (order : RangeOrder) (query : Values) (d : String)
    (hd : (∃ c tl, query.lookup "command" = some (c :: tl) ∧ c ≠ "" ∧ d = c) ∨
      ((query.lookup "command" = none ∨ query.Get "command" = "") ∧ d = "/argocd")) :
    usageInstructions order query "list-subscriptions" none =
      "*List your subscriptions*:\n```" ++ d ++ " list-subscriptions```" ∧
    usageInstructions order query "subscribe" none =
      "*Subscribe current channel*:\n```" ++ d ++
        " subscribe <my-app> <optional-trigger>\n" ++ d ++
        " subscribe proj:<my-proj> <optional-trigger>```" ∧
    usageInstructions order query "unsubscribe" none =
      "*Unsubscribe current channel*:\n```" ++ d ++
        " unsubscribe <my-app> <optional-trigger>\n" ++ d ++
        " unsubscribe proj:<my-proj> <optional-trigger>```" ∧
    usageInstructions order query "" none =
      ":wave: Need some help with `" ++ d ++ "`?\n" ++
      (order.entries.map (fun e => usageInstructions order query e.1 none ++ "\n")).foldr
        (fun a b => a ++ b) "" := by
  have hbc := botCommand_eq query d hd
  obtain ⟨t1, hl1, hr1⟩ := render_list d
  obtain ⟨t2, hl2, hr2⟩ := render_subscribe d
  obtain ⟨t3, hl3, hr3⟩ := render_unsubscribe d
  refine ⟨?_, ?_, ?_, ?_⟩
  · rw [usageInstructions_known order query _ none t1 hl1, hbc, hr1]; simp
  · rw [usageInstructions_known order query _ none t2 hl2, hbc, hr2]; simp
  · rw [usageInstructions_known order query _ none t3 hl3, hbc, hr3]; simp
  · rw [usageInstructions_unknown order query "" none lookup_empty, hbc]
    have hmap : order.entries.map (fun e => (e.2.Execute "" [("cmd", d)]).1 ++ "\n")
        = order.entries.map (fun e => usageInstructions order query e.1 none ++ "\n") := by
      apply List.map_congr_left
      intro e he
      have hmem : e ∈ commandsHelp := order.perm.mem_iff.mp he
      rw [usageInstructions_known order query e.1 none e.2 (lookup_entry e hmem), hbc]
      simp
    rw [hmap]
    simp

/-- C15 at a query whose `command` parameter is `/notify <b>`, and at one without the
parameter. -/
theorem usageInstructions_display_name_witness :
    ((∃ c tl, List.lookup "command" ([("command", ["/notify <b>"])] : Values) = some (c :: tl) ∧
        c ≠ "" ∧ "/notify <b>" = c) ∨
      ((List.lookup "command" ([("command", ["/notify <b>"])] : Values) = none ∨
        Values.Get [("command", ["/notify <b>"])] "command" = "") ∧
        ("/notify <b>" : String) = "/argocd")) ∧
    usageInstructions sourceOrder [("command", ["/notify <b>"])] "list-subscriptions" none =
      "*List your subscriptions*:\n```/notify <b> list-subscriptions```" ∧
    usageInstructions sourceOrder [] "list-subscriptions" none =
      "*List your subscriptions*:\n```/argocd list-subscriptions```" :=
  ⟨Or.inl ⟨"/notify <b>", [], by rfl, by decide, rfl⟩,
   (usageInstructions_display_name sourceOrder [("command", ["/notify <b>"])] "/notify <b>"
     (Or.inl ⟨"/notify <b>", [], by rfl, by decide, rfl⟩)).1,
   (usageInstructions_display_name sourceOrder [] "/argocd"
     (Or.inr ⟨Or.inl (by rfl), rfl⟩)).1⟩

/-- C20: `Parse` never panics: for every decoder, range order, adapter and request it
returns (no index expression `parts[0]`, `parts[1]`, `parts[2]`, `nameParts[0]`,
`nameParts[1]` is evaluated out of bounds), and `nameParts`, after the implicit `app` has
been prepended to a one-segment split, always has at least two elements. -/
theorem Parse_total (decode : QueryDecoder) (order : RangeOrder) (s : slack) (r : Request) :
    (s.Parse decode order r).isSome = true ∧
    ∀ name : String,
      2 ≤ (if (Split name ':').length = 1 then ["app"] ++ Split name ':'
        else Split name ':').length := by
  constructor
  · rcases hq : s.parseQuery decode r with ⟨⟨service, query, err⟩, calls⟩
    cases err with
    | some e => rw [Parse_of_error decode order s r service query e calls hq]; rfl
    | none =>
      by_cases hc : query.Get "channel_name" = ""
      · rw [Parse_no_channel decode order s r service query calls hq hc]; rfl
      · rcases ht : Fields (query.Get "text") with _ | ⟨verb, rest⟩
        · rw [Parse_no_tokens decode order s r service query calls hq hc ht]; rfl
        · by_cases h1 : verb = "list-subscriptions"
          · subst h1
            rw [Parse_list decode order s r service query calls hq hc rest ht]; rfl
          · by_cases hv : verb = "subscribe" ∨ verb = "unsubscribe"
            · rcases rest with _ | ⟨name, rest⟩
              · rw [Parse_one_token decode order s r service query calls hq hc verb ht hv]
                rfl
              · obtain ⟨kind, value, tl, hn⟩ := nameParts_shape name
                rw [Parse_update decode order s r service query calls hq hc verb name rest ht
                  hv kind value tl hn]
                by_cases hk : kind = "app" ∨ kind = "proj"
                · rw [if_pos hk]; rfl
                · rw [if_neg hk]; rfl
            · have h2 : verb ≠ "subscribe" := fun e => hv (Or.inl e)
              have h3 : verb ≠ "unsubscribe" := fun e => hv (Or.inr e)
              rw [Parse_unknown decode order s r service query calls hq hc verb rest ht h1 h2
                h3]
              rfl
  · intro name
    obtain ⟨kind, value, tl, hn⟩ := nameParts_shape name
    rw [hn]
    simp

/-- C19: for a second token `kind:seg:more` with `kind` one of `app`, `proj` and `seg`
free of `:`, `Parse` of `subscribe` / `unsubscribe` succeeds and sets `App` (kind `app`)
or `Project` (kind `proj`) to `seg` alone; what follows the second `:` is dropped and no
usage error is returned. -/
theorem Parse_extra_segments (decode : QueryDecoder) (order : RangeOrder) (s : slack)
    (r : Request) (service : String) (query : Values) (calls : List VerifierCall)
    (verb kind seg more : String) (rest : List String)
    (hq : s.parseQuery decode r = ((service, query, none), calls))
    (hc : query.Get "channel_name" ≠ "")
    (hverb : verb = "subscribe" ∨ verb = "unsubscribe")
    (hkind : kind = "app" ∨ kind = "proj")
    (hseg : ∀ c ∈ seg.data, c ≠ ':')
    (ht : Fields (query.Get "text") = verb :: (kind ++ ":" ++ seg ++ ":" ++ more) :: rest) :
    s.Parse decode order r =
      some (({ Service := service, Recipient := query.Get "channel_name",
               Subscribe := if verb = "subscribe" then
                 some { App := if kind = "app" then seg else "",
                        Project := if kind = "app" then "" else seg,
                        Trigger := rest.headD "" } else none,
               Unsubscribe := if verb = "subscribe" then none else
                 some { App := if kind = "app" then seg else "",
                        Project := if kind = "app" then "" else seg,
                        Trigger := rest.headD "" },
               ListSubscriptions := none }, none), calls) := by
  have hkc : ∀ c ∈ kind.data, c ≠ ':' := by
    rcases hkind with h | h <;> subst h <;> decide
  have e : kind ++ ":" ++ seg ++ ":" ++ more = kind ++ ":" ++ (seg ++ ":" ++ more) := by
    simp [String.append_assoc]
  have hsp : ∃ tl, (if (Split (kind ++ ":" ++ seg ++ ":" ++ more) ':').length = 1
      then ["app"] ++ Split (kind ++ ":" ++ seg ++ ":" ++ more) ':'
      else Split (kind ++ ":" ++ seg ++ ":" ++ more) ':') = kind :: seg :: tl := by
    rw [e, Split_kind kind _ hkc, Split_kind seg more hseg]
    rcases hs : Split more ':' with _ | ⟨m0, tl⟩
    · exact absurd hs (Split_ne_nil more ':')
    · exact ⟨m0 :: tl, by simp⟩
  obtain ⟨tl, hsp⟩ := hsp
  rw [Parse_update decode order s r service query calls hq hc verb _ rest ht hverb kind seg tl
    hsp, if_pos hkind]

/-- C19 at `subscribe app:foo:bar`. -/
theorem Parse_extra_segments_witness :
    ((slack.mk acceptAll).parseQuery (decodeAs "body" (formValues "subscribe app:foo:bar"))
        (formRequest "body") =
      (("slack", formValues "subscribe app:foo:bar", none),
        [("body", (formRequest "body").Header)])) ∧
    Values.Get (formValues "subscribe app:foo:bar") "channel_name" ≠ "" ∧
    (("subscribe" : String) = "subscribe" ∨ ("subscribe" : String) = "unsubscribe") ∧
    (("app" : String) = "app" ∨ ("app" : String) = "proj") ∧
    (∀ c ∈ ("foo" : String).data, c ≠ ':') ∧
    Fields (Values.Get (formValues "subscribe app:foo:bar") "text")
      = "subscribe" :: ("app" ++ ":" ++ "foo" ++ ":" ++ "bar") :: [] ∧
    (slack.mk acceptAll).Parse (decodeAs "body" (formValues "subscribe app:foo:bar"))
        sourceOrder (formRequest "body") =
      some (({ Service := "slack", Recipient := "general",
               Subscribe := some { App := "foo", Project := "", Trigger := "" },
               Unsubscribe := none, ListSubscriptions := none }, none),
        [("body", (formRequest "body").Header)]) :=
  ⟨by rfl, by decide, by decide, by decide, by decide, by rfl,
   Parse_extra_segments (decodeAs "body" (formValues "subscribe app:foo:bar")) sourceOrder
     (slack.mk acceptAll) (formRequest "body") "slack" (formValues "subscribe app:foo:bar")
     [("body", (formRequest "body").Header)] "subscribe" "app" "foo" "bar" []
     (by rfl) (by decide) (by decide) (by decide) (by decide) (by rfl)⟩

theorem take_three_nil (l : List String) (h : ([] : List String) = l.take 3) : l = [] := by
  cases l with
  | nil => rfl
  | cons a l => simp at h

theorem usageInstructions_catalog (order1 order2 : RangeOrder) (q1 q2 : Values)
    (verb : String) (err : Option String)
    (hcmd : q1.Get "command" = q2.Get "command")
    (hv : verb = "list-subscriptions" ∨ verb = "subscribe" ∨ verb = "unsubscribe") :
    usageInstructions order1 q1 verb err = usageInstructions order2 q2 verb err := by
  obtain ⟨tmpl, hlk⟩ := lookup_known verb hv
  rw [usageInstructions_known order1 q1 verb err tmpl hlk,
    usageInstructions_known order2 q2 verb err tmpl hlk, hcmd]

theorem Parse_take_three (decode1 decode2 : QueryDecoder) (order1 order2 : RangeOrder)
    (s1 s2 : slack) (r1 r2 : Request) (service : String) (q1 q2 : Values)
    (calls1 calls2 : List VerifierCall) (verb : String) (rest1 : List String)
    (hq1 : s1.parseQuery decode1 r1 = ((service, q1, none), calls1))
    (hq2 : s2.parseQuery decode2 r2 = ((service, q2, none), calls2))
    (hch : q1.Get "channel_name" = q2.Get "channel_name")
    (hcmd : q1.Get "command" = q2.Get "command")
    (ht1 : Fields (q1.Get "text") = verb :: rest1)
    (hcat : verb = "list-subscriptions" ∨ verb = "subscribe" ∨ verb = "unsubscribe")
    (htake : (Fields (q1.Get "text")).take 3 = (Fields (q2.Get "text")).take 3) :
    (s1.Parse decode1 order1 r1).map Prod.fst = (s2.Parse decode2 order2 r2).map Prod.fst := by
  by_cases hc : q1.Get "channel_name" = ""
  · rw [Parse_no_channel decode1 order1 s1 r1 service q1 calls1 hq1 hc,
      Parse_no_channel decode2 order2 s2 r2 service q2 calls2 hq2 (hch ▸ hc)]
    rfl
  · have hc2 : q2.Get "channel_name" ≠ "" := hch ▸ hc
    rw [ht1] at htake
    rcases ht2 : Fields (q2.Get "text") with _ | ⟨verb2, rest2⟩
    · rw [ht2] at htake; simp at htake
    · rw [ht2] at htake
      simp only [List.take_succ_cons, List.cons.injEq] at htake
      obtain ⟨hvv, hrest⟩ := htake
      subst hvv
      by_cases h1 : verb = "list-subscriptions"
      · subst h1
        rw [Parse_list decode1 order1 s1 r1 service q1 calls1 hq1 hc rest1 ht1,
          Parse_list decode2 order2 s2 r2 service q2 calls2 hq2 hc2 rest2 ht2, hch]
        rfl
      · have hv : verb = "subscribe" ∨ verb = "unsubscribe" := by
          rcases hcat with h | h | h
          · exact absurd h h1
          · exact Or.inl h
          · exact Or.inr h
        rcases rest1 with _ | ⟨name, rr1⟩
        · have hr2 := take_three_nil rest2 (by
            cases rest2 with
            | nil => rfl
            | cons a l => simp at hrest)
          subst hr2
          rw [Parse_one_token decode1 order1 s1 r1 service q1 calls1 hq1 hc verb ht1 hv,
            Parse_one_token decode2 order2 s2 r2 service q2 calls2 hq2 hc2 verb ht2 hv,
            usageInstructions_catalog order1 order2 q1 q2 verb _ hcmd hcat, hch]
          rfl
        · rcases rest2 with _ | ⟨name2, rr2⟩
          · simp at hrest
          · simp only [List.take_succ_cons, List.cons.injEq] at hrest
            obtain ⟨hnn, hrr⟩ := hrest
            subst hnn
            have hhead : rr1.headD "" = rr2.headD "" := by
              cases rr1 <;> cases rr2 <;> simp_all
            obtain ⟨kind, value, tl, hn⟩ := nameParts_shape name
            rw [Parse_update decode1 order1 s1 r1 service q1 calls1 hq1 hc verb name rr1 ht1
                hv kind value tl hn,
              Parse_update decode2 order2 s2 r2 service q2 calls2 hq2 hc2 verb name rr2 ht2
                hv kind value tl hn,
              usageInstructions_catalog order1 order2 q1 q2 verb _ hcmd hcat, hch, hhead]
            by_cases hk : kind = "app" ∨ kind = "proj"
            · rw [if_pos hk, if_pos hk]; rfl
            · rw [if_neg hk, if_neg hk]; rfl

theorem Fields_respace (a ws1 ws2 b : String)
    (h1 : ∀ c ∈ ws1.data, isSpace c = true) (h2 : ∀ c ∈ ws2.data, isSpace c = true)
    (hne : (ws1 ≠ "" ∧ ws2 ≠ "") ∨ a = "" ∨ b = "") :
    Fields (a ++ ws1 ++ b) = Fields (a ++ ws2 ++ b) := by
  rcases hne with ⟨n1, n2⟩ | ha | hb
  · rw [Fields_sep a ws1 b h1 n1, Fields_sep a ws2 b h2 n2]
  · subst ha
    simp only [String.empty_append]
    rw [Fields_lead ws1 b h1, Fields_lead ws2 b h2]
  · subst hb
    simp only [String.append_empty]
    rw [Fields_trail a ws1 h1, Fields_trail a ws2 h2]

/-- C18: for `subscribe` and `unsubscribe` (and `list-subscriptions`), the Go results
`(cmd, err)` of `Parse` on two verified requests with the same service, channel and
`command` parameter are equal, whatever order each call's range loop would take, when the
two texts have the same first three tokens, in particular when one is the other with
further tokens appended after the trigger, and when one text is the other with a run of
white space replaced by another run (between tokens, or at the start or the end, where
the run may also be empty). -/
theorem Parse_first_three_tokens (decode1 decode2 : QueryDecoder)
    (order1 order2 : RangeOrder)
    (s1 s2 : slack) (r1 r2 : Request) (service : String) (q1 q2 : Values)
    (calls1 calls2 : List VerifierCall) (verb : String) (rest1 : List String)
    (hq1 : s1.parseQuery decode1 r1 = ((service, q1, none), calls1))
    (hq2 : s2.parseQuery decode2 r2 = ((service, q2, none), calls2))
    (hch : q1.Get "channel_name" = q2.Get "channel_name")
    (hcmd : q1.Get "command" = q2.Get "command")
    (ht1 : Fields (q1.Get "text") = verb :: rest1)
    (hcat : verb = "list-subscriptions" ∨ verb = "subscribe" ∨ verb = "unsubscribe")
    (htext : (Fields (q1.Get "text")).take 3 = (Fields (q2.Get "text")).take 3 ∨
      ∃ a ws1 ws2 b : String,
        q1.Get "text" = a ++ ws1 ++ b ∧ q2.Get "text" = a ++ ws2 ++ b ∧
        (∀ c ∈ ws1.data, isSpace c = true) ∧ (∀ c ∈ ws2.data, isSpace c = true) ∧
        ((ws1 ≠ "" ∧ ws2 ≠ "") ∨ a = "" ∨ b = "")) :
    (s1.Parse decode1 order1 r1).map Prod.fst = (s2.Parse decode2 order2 r2).map Prod.fst := by
  apply Parse_take_three decode1 decode2 order1 order2 s1 s2 r1 r2 service q1 q2 calls1 calls2
    verb rest1 hq1 hq2 hch hcmd ht1 hcat
  rcases htext with h | ⟨a, ws1, ws2, b, e1, e2, h1, h2, hne⟩
  · exact h
  · rw [e1, e2, Fields_respace a ws1 ws2 b h1 h2 hne]

/-- C18 at `subscribe app:foo bar baz qux` against `subscribe app:foo bar`, and at
`subscribe`, two blanks, `app:foo` against `subscribe`, a tab, `app:foo`, the two calls
of each pair taking different range orders. -/
theorem Parse_first_three_tokens_witness :
    ((slack.mk acceptAll).parseQuery
        (decodeAs "long" (formValues "subscribe app:foo bar baz qux")) (formRequest "long") =
      (("slack", formValues "subscribe app:foo bar baz qux", none),
        [("long", (formRequest "long").Header)])) ∧
    ((slack.mk acceptAll).parseQuery
        (decodeAs "short" (formValues "subscribe app:foo bar")) (formRequest "short") =
      (("slack", formValues "subscribe app:foo bar", none),
        [("short", (formRequest "short").Header)])) ∧
    Fields (Values.Get (formValues "subscribe app:foo bar baz qux") "text")
      = "subscribe" :: ["app:foo", "bar", "baz", "qux"] ∧
    (Fields (Values.Get (formValues "subscribe app:foo bar baz qux") "text")).take 3
      = (Fields (Values.Get (formValues "subscribe app:foo bar") "text")).take 3 ∧
    ((slack.mk acceptAll).Parse (decodeAs "long" (formValues "subscribe app:foo bar baz qux"))
        sourceOrder (formRequest "long")).map Prod.fst =
      ((slack.mk acceptAll).Parse (decodeAs "short" (formValues "subscribe app:foo bar"))
        rotatedOrder (formRequest "short")).map Prod.fst ∧
    Values.Get (formValues "subscribe  app:foo") "text" = "subscribe" ++ "  " ++ "app:foo" ∧
    Values.Get (formValues "subscribe\tapp:foo") "text" = "subscribe" ++ "\t" ++ "app:foo" ∧
    ((slack.mk acceptAll).Parse (decodeAs "blanks" (formValues "subscribe  app:foo"))
        sourceOrder (formRequest "blanks")).map Prod.fst =
      ((slack.mk acceptAll).Parse (decodeAs "tab" (formValues "subscribe\tapp:foo"))
        rotatedOrder (formRequest "tab")).map Prod.fst :=
  ⟨by rfl, by rfl, by rfl, by rfl,
   Parse_first_three_tokens (decodeAs "long" (formValues "subscribe app:foo bar baz qux"))
     (decodeAs "short" (formValues "subscribe app:foo bar")) sourceOrder rotatedOrder
     (slack.mk acceptAll) (slack.mk acceptAll) (formRequest "long") (formRequest "short")
     "slack" (formValues "subscribe app:foo bar baz qux") (formValues "subscribe app:foo bar")
     [("long", (formRequest "long").Header)] [("short", (formRequest "short").Header)]
     "subscribe" ["app:foo", "bar", "baz", "qux"]
     (by rfl) (by rfl) (by rfl) (by rfl) (by rfl) (by decide) (Or.inl (by rfl)),
   by decide, by decide,
   Parse_first_three_tokens (decodeAs "blanks" (formValues "subscribe  app:foo"))
     (decodeAs "tab" (formValues "subscribe\tapp:foo")) sourceOrder rotatedOrder
     (slack.mk acceptAll) (slack.mk acceptAll) (formRequest "blanks") (formRequest "tab")
     "slack" (formValues "subscribe  app:foo") (formValues "subscribe\tapp:foo")
     [("blanks", (formRequest "blanks").Header)] [("tab", (formRequest "tab").Header)]
     "subscribe" ["app:foo"]
     (by rfl) (by rfl) (by rfl) (by rfl) (by rfl) (by decide)
     (Or.inr ⟨"subscribe", "  ", "\t", "app:foo", by decide, by decide, by decide, by decide,
       Or.inl ⟨by decide, by decide⟩⟩)⟩

/-- C17: on two verified requests with the same service and channel whose texts are
`subscribe X` and `unsubscribe X` (the same tokens `X` after the verb), `Parse` succeeds
on the one exactly when it succeeds on the other; on success the `Subscribe` payload of
the first is the `Unsubscribe` payload of the second (same `App`, `Project`, `Trigger`),
`Recipient` and `Service` agree, and the other two action fields are nil in both. -/
theorem Parse_subscribe_unsubscribe (decode1 decode2 : QueryDecoder) (order1 order2 : RangeOrder)
    (s1 s2 : slack) (r1 r2 : Request) (service : String) (q1 q2 : Values)
    (calls1 calls2 : List VerifierCall) (X : List String)
    (hq1 : s1.parseQuery decode1 r1 = ((service, q1, none), calls1))
    (hq2 : s2.parseQuery decode2 r2 = ((service, q2, none), calls2))
    (hch : q1.Get "channel_name" = q2.Get "channel_name")
    (ht1 : Fields (q1.Get "text") = "subscribe" :: X)
    (ht2 : Fields (q2.Get "text") = "unsubscribe" :: X) :
    ((∃ c1, s1.Parse decode1 order1 r1 = some ((c1, none), calls1)) ↔
      (∃ c2, s2.Parse decode2 order2 r2 = some ((c2, none), calls2))) ∧
    (∀ c1 c2, s1.Parse decode1 order1 r1 = some ((c1, none), calls1) →
      s2.Parse decode2 order2 r2 = some ((c2, none), calls2) →
      c1.Subscribe ≠ none ∧ c1.Subscribe = c2.Unsubscribe ∧
      c1.Recipient = c2.Recipient ∧ c1.Service = c2.Service ∧
      c1.Unsubscribe = none ∧ c1.ListSubscriptions = none ∧
      c2.Subscribe = none ∧ c2.ListSubscriptions = none) := by
  by_cases hc : q1.Get "channel_name" = ""
  · have hc2 : q2.Get "channel_name" = "" := hch ▸ hc
    rw [Parse_no_channel decode1 order1 s1 r1 service q1 calls1 hq1 hc,
      Parse_no_channel decode2 order2 s2 r2 service q2 calls2 hq2 hc2]
    simp
  · have hc2 : q2.Get "channel_name" ≠ "" := hch ▸ hc
    rcases X with _ | ⟨name, rest⟩
    · rw [Parse_one_token decode1 order1 s1 r1 service q1 calls1 hq1 hc _ ht1 (Or.inl rfl),
        Parse_one_token decode2 order2 s2 r2 service q2 calls2 hq2 hc2 _ ht2 (Or.inr rfl)]
      simp
    · obtain ⟨kind, value, tl, hn⟩ := nameParts_shape name
      rw [Parse_update decode1 order1 s1 r1 service q1 calls1 hq1 hc _ name rest ht1
          (Or.inl rfl) kind value tl hn,
        Parse_update decode2 order2 s2 r2 service q2 calls2 hq2 hc2 _ name rest ht2
          (Or.inr rfl) kind value tl hn]
      by_cases hk : kind = "app" ∨ kind = "proj"
      · rw [if_pos hk, if_pos hk]
        constructor
        · simp
        · intro c1 c2 h1 h2
          simp only [Option.some.injEq, Prod.mk.injEq, and_true] at h1 h2
          subst h1 h2
          simp [hch]
      · rw [if_neg hk, if_neg hk]
        simp

/-- C17 at `subscribe proj:bar baz` and `unsubscribe proj:bar baz`. -/
theorem Parse_subscribe_unsubscribe_witness :
    ((slack.mk acceptAll).parseQuery
        (decodeAs "sub" (formValues "subscribe proj:bar baz")) (formRequest "sub") =
      (("slack", formValues "subscribe proj:bar baz", none),
        [("sub", (formRequest "sub").Header)])) ∧
    ((slack.mk acceptAll).parseQuery
        (decodeAs "unsub" (formValues "unsubscribe proj:bar baz")) (formRequest "unsub") =
      (("slack", formValues "unsubscribe proj:bar baz", none),
        [("unsub", (formRequest "unsub").Header)])) ∧
    Fields (Values.Get (formValues "subscribe proj:bar baz") "text")
      = "subscribe" :: ["proj:bar", "baz"] ∧
    Fields (Values.Get (formValues "unsubscribe proj:bar baz") "text")
      = "unsubscribe" :: ["proj:bar", "baz"] ∧
    (slack.mk acceptAll).Parse (decodeAs "sub" (formValues "subscribe proj:bar baz"))
        sourceOrder (formRequest "sub") =
      some ((subscribeProjBar, none), [("sub", (formRequest "sub").Header)]) ∧
    (slack.mk acceptAll).Parse (decodeAs "unsub" (formValues "unsubscribe proj:bar baz"))
        sourceOrder (formRequest "unsub") =
      some ((unsubscribeProjBar, none), [("unsub", (formRequest "unsub").Header)]) ∧
    (subscribeProjBar.Subscribe ≠ none ∧
      subscribeProjBar.Subscribe = unsubscribeProjBar.Unsubscribe ∧
      subscribeProjBar.Recipient = unsubscribeProjBar.Recipient ∧
      subscribeProjBar.Service = unsubscribeProjBar.Service ∧
      subscribeProjBar.Unsubscribe = none ∧ subscribeProjBar.ListSubscriptions = none ∧
      unsubscribeProjBar.Subscribe = none ∧ unsubscribeProjBar.ListSubscriptions = none) :=
  ⟨by rfl, by rfl, by rfl, by rfl, by rfl, by rfl,
   (Parse_subscribe_unsubscribe (decodeAs "sub" (formValues "subscribe proj:bar baz"))
     (decodeAs "unsub" (formValues "unsubscribe proj:bar baz")) sourceOrder sourceOrder
     (slack.mk acceptAll) (slack.mk acceptAll) (formRequest "sub") (formRequest "unsub")
     "slack" (formValues "subscribe proj:bar baz") (formValues "unsubscribe proj:bar baz")
     [("sub", (formRequest "sub").Header)] [("unsub", (formRequest "unsub").Header)]
     ["proj:bar", "baz"] (by rfl) (by rfl) (by rfl) (by rfl) (by rfl)).2
     subscribeProjBar unsubscribeProjBar (by rfl) (by rfl)⟩

theorem byte_eq (x : Byte) (n : Nat) (hn : n < 256) (h : x.val = n) : x = Fin.ofNat n := by
  apply Fin.ext
  simp [Fin.ofNat, h, Nat.mod_eq_of_lt hn]

theorem DecodeRune_multi (b : Byte) (rest : List Byte) (hb : ¬ b.val < 0x80)
    (hok : ¬ ((DecodeRune (b :: rest)).1 = RuneError ∧ (DecodeRune (b :: rest)).2 = 1)) :
    2 ≤ (DecodeRune (b :: rest)).2 ∧
    (DecodeRune (b :: rest)).2 ≤ (b :: rest).length ∧
    (∀ x ∈ (b :: rest).take (DecodeRune (b :: rest)).2, 0x80 ≤ x.val) ∧
    ((DecodeRune (b :: rest)).1 = 0x2028 →
      (b :: rest).take (DecodeRune (b :: rest)).2 = [0xE2, 0x80, 0xA8]) ∧
    ((DecodeRune (b :: rest)).1 = 0x2029 →
      (b :: rest).take (DecodeRune (b :: rest)).2 = [0xE2, 0x80, 0xA9]) := by
  have hb256 := b.isLt
  by_cases h1 : b.val < 0xC2 ∨ 0xF4 < b.val
  · simp [DecodeRune, hb, h1] at hok
  · by_cases h2 : b.val < 0xE0
    · -- two bytes
      rcases rest with _ | ⟨s1, rest1⟩
      · simp [DecodeRune, hb, h1, h2] at hok
      · have e0 : ¬ b.val = 0xE0 := by omega
        have e1 : ¬ b.val = 0xF0 := by omega
        have e2 : ¬ b.val = 0xED := by omega
        have e3 : ¬ b.val = 0xF4 := by omega
        by_cases hs1 : s1.val < 0x80 ∨ 0xBF < s1.val
        · simp [DecodeRune, hb, h1, h2, e0, e1, e2, e3, hs1] at hok
        · have hd : DecodeRune (b :: s1 :: rest1) = (b.val % 32 * 64 + s1.val % 64, 2) := by
            simp [DecodeRune, hb, h1, h2, e0, e1, e2, e3, hs1]
          rw [hd]
          refine ⟨by simp, by simp, ?_, ?_, ?_⟩
          · intro x hx
            simp at hx
            rcases hx with hx | hx <;> subst hx <;> omega
          · intro h; simp at h; omega
          · intro h; simp at h; omega
    · by_cases h3 : b.val < 0xF0
      · -- three bytes
        have hsz : (if b.val < 0xE0 then 2 else if b.val < 0xF0 then 3 else 4) = 3 := by
          simp [h2, h3]
        have e1 : ¬ b.val = 0xF0 := by omega
        have e3 : ¬ b.val = 0xF4 := by omega
        rcases rest with _ | ⟨s1, _ | ⟨s2, rest2⟩⟩
        · simp [DecodeRune, hb, h1, h2, h3] at hok
        · simp [DecodeRune, hb, h1, h2, h3] at hok
        · by_cases hs1 : s1.val < (if b.val = 0xE0 then 0xA0 else 0x80) ∨
              (if b.val = 0xED then 0x9F else 0xBF) < s1.val
          · simp [DecodeRune, hb, h1, h2, h3, e1, e3, hs1] at hok
          · by_cases hs2 : s2.val < 0x80 ∨ 0xBF < s2.val
            · simp [DecodeRune, hb, h1, h2, h3, e1, e3, hs1, hs2] at hok
            · have hd : DecodeRune (b :: s1 :: s2 :: rest2)
                  = (b.val % 16 * 4096 + s1.val % 64 * 64 + s2.val % 64, 3) := by
                simp [DecodeRune, hb, h1, h2, h3, e1, e3, hs1, hs2]
              have hs1b : 0x80 ≤ s1.val ∧ s1.val ≤ 0xBF := by
                split_ifs at hs1 <;> omega
              rw [hd]
              refine ⟨by simp, by simp, ?_, ?_, ?_⟩
              · intro x hx
                simp at hx
                rcases hx with hx | hx | hx <;> subst hx <;> omega
              · intro h
                simp only at h
                have hb0 : b.val = 0xE2 := by omega
                have hb1 : s1.val = 0x80 := by omega
                have hb2 : s2.val = 0xA8 := by omega
                rw [byte_eq b _ (by decide) hb0, byte_eq s1 _ (by decide) hb1,
                  byte_eq s2 _ (by decide) hb2]
                rfl
              · intro h
                simp only at h
                have hb0 : b.val = 0xE2 := by omega
                have hb1 : s1.val = 0x80 := by omega
                have hb2 : s2.val = 0xA9 := by omega
                rw [byte_eq b _ (by decide) hb0, byte_eq s1 _ (by decide) hb1,
                  byte_eq s2 _ (by decide) hb2]
                rfl
      · -- four bytes
        have e0 : ¬ b.val = 0xE0 := by omega
        have e2 : ¬ b.val = 0xED := by omega
        rcases rest with _ | ⟨s1, _ | ⟨s2, _ | ⟨s3, rest3⟩⟩⟩
        · simp [DecodeRune, hb, h1, h2, h3] at hok
        · simp [DecodeRune, hb, h1, h2, h3] at hok
        · simp [DecodeRune, hb, h1, h2, h3] at hok
        · by_cases hs1 : s1.val < (if b.val = 0xF0 then 0x90 else 0x80) ∨
              (if b.val = 0xF4 then 0x8F else 0xBF) < s1.val
          · simp [DecodeRune, hb, h1, h2, h3, e0, e2, hs1] at hok
          · by_cases hs2 : s2.val < 0x80 ∨ 0xBF < s2.val
            · simp [DecodeRune, hb, h1, h2, h3, e0, e2, hs1, hs2] at hok
            · by_cases hs3 : s3.val < 0x80 ∨ 0xBF < s3.val
              · simp [DecodeRune, hb, h1, h2, h3, e0, e2, hs1, hs2, hs3] at hok
              · have hd : DecodeRune (b :: s1 :: s2 :: s3 :: rest3)
                    = (b.val % 8 * 262144 + s1.val % 64 * 4096 + s2.val % 64 * 64
                        + s3.val % 64, 4) := by
                  simp [DecodeRune, hb, h1, h2, h3, e0, e2, hs1, hs2, hs3]
                have hs1b : 0x80 ≤ s1.val ∧ s1.val ≤ 0xBF ∧
                    (b.val = 0xF0 → 0x90 ≤ s1.val) := by
                  split_ifs at hs1 <;> omega
                rw [hd]
                refine ⟨by simp, by simp, ?_, ?_, ?_⟩
                · intro x hx
                  simp at hx
                  rcases hx with hx | hx | hx | hx <;> subst hx <;> omega
                · intro h
                  simp only at h
                  exfalso
                  by_cases hf : b.val = 0xF0
                  · have := hs1b.2.2 hf
                    omega
                  · omega
                · intro h
                  simp only at h
                  exfalso
                  by_cases hf : b.val = 0xF0
                  · have := hs1b.2.2 hf
                    omega
                  · omega

/-! ## Facts about the UTF-8 decoder and the JSON string encoder and reader -/

theorem unquote_byte (fuel : Nat) (b : Byte) (tail : List Byte)
    (h1 : 0x20 ≤ b.val) (h2 : b ≠ 0x22) (h3 : b ≠ 0x5C) :
    unquote (fuel + 1) (b :: tail) = (unquote fuel tail).map (fun p => (b :: p.1, p.2)) := by
  have h4 : ¬ b.val < 0x20 := by omega
  simp [unquote, h2, h3, h4]

theorem unquote_copy (fuel : Nat) (bs tail : List Byte)
    (h : ∀ b ∈ bs, 0x80 ≤ b.val) :
    unquote (fuel + bs.length) (bs ++ tail)
      = (unquote fuel tail).map (fun p => (bs ++ p.1, p.2)) := by
  induction bs with
  | nil => simp
  | cons b bs ih =>
    have hb : 0x80 ≤ b.val := h b (List.mem_cons_self _ _)
    have h2 : b ≠ 0x22 := by intro e; rw [e] at hb; revert hb; decide
    have h3 : b ≠ 0x5C := by intro e; rw [e] at hb; revert hb; decide
    have e : fuel + (b :: bs).length = (fuel + bs.length) + 1 := by simp; omega
    rw [e, List.cons_append, unquote_byte _ b _ (by omega) h2 h3,
      ih (fun x hx => h x (List.mem_cons_of_mem _ hx))]
    cases unquote fuel tail <;> simp

theorem unquote_simple (fuel : Nat) (e x : Byte) (tail : List Byte)
    (he : simpleEscape e = some x) :
    unquote (fuel + 1) (0x5C :: e :: tail)
      = (unquote fuel tail).map (fun p => (x :: p.1, p.2)) := by
  have hne : e ≠ 0x75 := by
    intro h
    have hn : simpleEscape 0x75 = none := by decide
    rw [h, hn] at he
    cases he
  have h1 : ¬ ((0x5C : Byte) = 0x22) := by decide
  simp [unquote, he, hne, h1]

theorem unquote_u (fuel : Nat) (h1 h2 h3 h4 : Byte) (cp : Nat) (tail : List Byte)
    (hh : hex4 h1 h2 h3 h4 = some cp) (hns : ¬ (0xD800 ≤ cp ∧ cp ≤ 0xDBFF)) :
    unquote (fuel + 1) (0x5C :: 0x75 :: h1 :: h2 :: h3 :: h4 :: tail)
      = (unquote fuel tail).map (fun p => (EncodeRune cp ++ p.1, p.2)) := by
  have e1 : ¬ ((0x5C : Byte) = 0x22) := by decide
  simp only [unquote, e1, if_false, if_true, hh, hns]

theorem hex4_ascii : ∀ n : Fin 128,
    hex4 0x30 0x30 (hexDigit (n.val / 16)) (hexDigit (n.val % 16)) = some n.val := by
  decide

theorem EncodeRune_ascii (b : Byte) (hb : b.val < 0x80) : EncodeRune b.val = [b] := by
  have : b.val ≤ 0x7F := by omega
  simp only [EncodeRune, this, if_true, toByte]
  congr 1
  apply Fin.ext
  simp [Fin.ofNat, Nat.mod_eq_of_lt b.isLt]

theorem unquote_ascii (rel : EncoderRelease) (fuel : Nat) (b : Byte) (tail : List Byte)
    (hb : b.val < 0x80) :
    unquote (fuel + 1) ((if htmlSafe b then [b] else escapeByte rel b) ++ tail)
      = (unquote fuel tail).map (fun p => (b :: p.1, p.2)) := by
  by_cases hs : htmlSafe b = true
  · rw [if_pos hs]
    simp only [htmlSafe, Bool.and_eq_true, decide_eq_true_eq, bne_iff_ne, ne_eq] at hs
    exact unquote_byte fuel b tail hs.1.1.1.1.1.1 hs.1.1.1.1.2 hs.2
  · rw [if_neg hs]
    unfold escapeByte
    split_ifs with c1 c2 c3 c4 c5 c6
    · rcases c1 with c | c <;> subst c <;> exact unquote_simple fuel _ _ tail (by decide)
    · obtain ⟨-, c⟩ := c2; subst c; exact unquote_simple fuel _ _ tail (by decide)
    · obtain ⟨-, c⟩ := c3; subst c; exact unquote_simple fuel _ _ tail (by decide)
    · subst c4; exact unquote_simple fuel _ _ tail (by decide)
    · subst c5; exact unquote_simple fuel _ _ tail (by decide)
    · subst c6; exact unquote_simple fuel _ _ tail (by decide)
    · have hh := hex4_ascii ⟨b.val, hb⟩
      simp only at hh
      have := unquote_u fuel _ _ _ _ b.val tail hh (by omega)
      rw [EncodeRune_ascii b hb] at this
      exact this

theorem unquote_line_sep (fuel : Nat) (tail : List Byte) :
    unquote (fuel + 1) (bytes "\\u202" ++ [hexDigit (0x2028 % 16)] ++ tail)
      = (unquote fuel tail).map (fun p => ([0xE2, 0x80, 0xA8] ++ p.1, p.2)) ∧
    unquote (fuel + 1) (bytes "\\u202" ++ [hexDigit (0x2029 % 16)] ++ tail)
      = (unquote fuel tail).map (fun p => ([0xE2, 0x80, 0xA9] ++ p.1, p.2)) := by
  constructor
  · exact unquote_u fuel 0x32 0x30 0x32 0x38 0x2028 tail (by decide) (by decide)
  · exact unquote_u fuel 0x32 0x30 0x32 0x39 0x2029 tail (by decide) (by decide)

theorem unquote_replacement (rel : EncoderRelease) :
    ∃ m, 1 ≤ m ∧ m ≤ (replacement rel).length ∧
      ∀ (fuel : Nat) (tail : List Byte),
        unquote (fuel + m) (replacement rel ++ tail)
          = (unquote fuel tail).map (fun p => ([0xEF, 0xBF, 0xBD] ++ p.1, p.2)) := by
  by_cases hr : rel.rawReplacement = true
  · refine ⟨3, by decide, by simp [replacement, hr], fun fuel tail => ?_⟩
    simp only [replacement, hr, if_true]
    exact unquote_copy fuel [0xEF, 0xBF, 0xBD] tail (by
      intro b hb
      simp only [List.mem_cons, List.mem_singleton, List.not_mem_nil, or_false] at hb
      rcases hb with h | h | h <;> subst h <;> decide)
  · refine ⟨1, by decide, ?_, fun fuel tail => ?_⟩
    · simp only [replacement, hr]
      decide
    · simp only [replacement, hr]
      exact unquote_u fuel 0x66 0x66 0x66 0x64 0xFFFD tail (by decide) (by decide)

theorem escape_length (rel : EncoderRelease) (b : Byte) :
    1 ≤ (if htmlSafe b then [b] else escapeByte rel b).length := by
  unfold escapeByte
  split_ifs <;> simp

theorem unquote_appendBody (rel : EncoderRelease) (fuel : Nat) :
    ∀ src : List Byte, src.length ≤ fuel →
      ∃ n, n ≤ (appendBody rel fuel src).length ∧
        ∀ (tail : List Byte) (k : Nat),
          unquote (k + n + 1) (appendBody rel fuel src ++ 0x22 :: tail)
            = some (coerceAux fuel src, tail) := by
  induction fuel with
  | zero =>
    intro src hlen
    have : src = [] := List.length_eq_zero.mp (Nat.le_zero.mp hlen)
    subst this
    exact ⟨0, by simp, fun tail k => by simp [appendBody, coerceAux, unquote]⟩
  | succ fuel ih =>
    intro src hlen
    rcases src with _ | ⟨b, rest⟩
    · exact ⟨0, by simp, fun tail k => by simp [appendBody, coerceAux, unquote]⟩
    · by_cases hb : b.val < 0x80
      · obtain ⟨n, hn, hk⟩ := ih rest (by simp at hlen; omega)
        refine ⟨n + 1, ?_, fun tail k => ?_⟩
        · have := escape_length rel b
          simp only [appendBody, hb, if_true, List.length_append]
          omega
        · have e : k + (n + 1) + 1 = (k + n + 1) + 1 := by omega
          simp only [appendBody, coerceAux, hb, if_true]
          rw [e, List.append_assoc, unquote_ascii rel _ b _ hb, hk tail k]
          rfl
      · by_cases hbad : (DecodeRune (b :: rest)).1 = RuneError ∧ (DecodeRune (b :: rest)).2 = 1
        · obtain ⟨n, hn, hk⟩ := ih rest (by simp at hlen; omega)
          obtain ⟨m, hm1, hm2, hrep⟩ := unquote_replacement rel
          refine ⟨n + m, ?_, fun tail k => ?_⟩
          · simp only [appendBody, hb, if_false, hbad, and_self, if_true, List.length_append]
            omega
          · have e : k + (n + m) + 1 = (k + n + 1) + m := by omega
            simp only [appendBody, coerceAux, hb, if_false, hbad, and_self, if_true]
            rw [e, List.append_assoc, hrep, hk tail k]
            rfl
        · obtain ⟨h2, hle, hhigh, h28, h29⟩ := DecodeRune_multi b rest hb hbad
          have hlen2 : ((b :: rest).drop (DecodeRune (b :: rest)).2).length ≤ fuel := by
            rw [List.length_drop]; omega
          obtain ⟨n, hn, hk⟩ := ih _ hlen2
          have hco : coerceAux (fuel + 1) (b :: rest) =
              (b :: rest).take (DecodeRune (b :: rest)).2 ++
                coerceAux fuel ((b :: rest).drop (DecodeRune (b :: rest)).2) := by
            simp only [coerceAux, hb, if_false, if_neg hbad]
          have happ : appendBody rel (fuel + 1) (b :: rest) =
              if (DecodeRune (b :: rest)).1 = 0x2028 ∨ (DecodeRune (b :: rest)).1 = 0x2029 then
                bytes "\\u202" ++ [hexDigit ((DecodeRune (b :: rest)).1 % 16)] ++
                  appendBody rel fuel ((b :: rest).drop (DecodeRune (b :: rest)).2)
              else
                (b :: rest).take (DecodeRune (b :: rest)).2 ++
                  appendBody rel fuel ((b :: rest).drop (DecodeRune (b :: rest)).2) := by
            simp only [appendBody, hb, if_false, if_neg hbad]
          rw [happ, hco]
          by_cases c28 : (DecodeRune (b :: rest)).1 = 0x2028
          · rw [if_pos (Or.inl c28), c28]
            refine ⟨n + 1, ?_, fun tail k => ?_⟩
            · simp only [List.length_append, List.length_singleton]
              omega
            · have e : k + (n + 1) + 1 = (k + n + 1) + 1 := by omega
              rw [e, List.append_assoc, (unquote_line_sep _ _).1, hk tail k]
              simp only [Option.map_some']
              rw [← h28 c28]
          · by_cases c29 : (DecodeRune (b :: rest)).1 = 0x2029
            · rw [if_pos (Or.inr c29), c29]
              refine ⟨n + 1, ?_, fun tail k => ?_⟩
              · simp only [List.length_append, List.length_singleton]
                omega
              · have e : k + (n + 1) + 1 = (k + n + 1) + 1 := by omega
                rw [e, List.append_assoc, (unquote_line_sep _ _).2, hk tail k]
                simp only [Option.map_some']
                rw [← h29 c29]
            · have hlt : ((b :: rest).take (DecodeRune (b :: rest)).2).length
                  = (DecodeRune (b :: rest)).2 := by
                rw [List.length_take]; omega
              rw [if_neg (by intro h; rcases h with h | h; exact c28 h; exact c29 h)]
              refine ⟨n + (DecodeRune (b :: rest)).2, ?_, fun tail k => ?_⟩
              · simp only [List.length_append, hlt]
                omega
              · have e : k + (n + (DecodeRune (b :: rest)).2) + 1
                    = (k + n + 1) + ((b :: rest).take (DecodeRune (b :: rest)).2).length := by
                  rw [hlt]; omega
                rw [e, List.append_assoc, unquote_copy _ _ _ hhigh, hk tail k]
                rfl

theorem coerceAux_facts (fuel : Nat) :
    ∀ src : List Byte, src.length ≤ fuel →
      src.length ≤ (coerceAux fuel src).length ∧
      (validAux fuel src = true → coerceAux fuel src = src) ∧
      (validAux fuel src = false → src.length < (coerceAux fuel src).length) := by
  induction fuel with
  | zero =>
    intro src hlen
    have : src = [] := List.length_eq_zero.mp (Nat.le_zero.mp hlen)
    subst this
    simp [coerceAux, validAux]
  | succ fuel ih =>
    intro src hlen
    rcases src with _ | ⟨b, rest⟩
    · simp [coerceAux, validAux]
    · by_cases hb : b.val < 0x80
      · have hd : DecodeRune (b :: rest) = (b.val, 1) := by simp [DecodeRune, hb]
        have hne : ¬ (b.val = RuneError) := by
          simp only [RuneError]; omega
        have hv : validAux (fuel + 1) (b :: rest) = validAux fuel rest := by
          simp [validAux, hd, hne]
        obtain ⟨i1, i2, i3⟩ := ih rest (by simp at hlen; omega)
        have hco : coerceAux (fuel + 1) (b :: rest) = b :: coerceAux fuel rest := by
          simp only [coerceAux, hb, if_true]
        rw [hv, hco]
        refine ⟨(by simp; omega), fun h => (by rw [i2 h]), fun h => ?_⟩
        have := i3 h
        simp only [List.length_cons]
        omega
      · by_cases hbad : (DecodeRune (b :: rest)).1 = RuneError ∧ (DecodeRune (b :: rest)).2 = 1
        · have hv : validAux (fuel + 1) (b :: rest) = false := by
            simp only [validAux, hbad, and_self, if_true]
          obtain ⟨i1, -, -⟩ := ih rest (by simp at hlen; omega)
          have hco : coerceAux (fuel + 1) (b :: rest)
              = [0xEF, 0xBF, 0xBD] ++ coerceAux fuel rest := by
            simp only [coerceAux, hb, if_false, hbad, and_self, if_true]
          rw [hv, hco]
          refine ⟨?_, fun h => (by cases h), fun _ => ?_⟩
          · simp only [List.length_cons, List.length_append, List.length_nil]; omega
          · simp only [List.length_cons, List.length_append, List.length_nil]; omega
        · obtain ⟨h2, hle, -, -, -⟩ := DecodeRune_multi b rest hb hbad
          have hlen2 : ((b :: rest).drop (DecodeRune (b :: rest)).2).length ≤ fuel := by
            rw [List.length_drop]; omega
          obtain ⟨i1, i2, i3⟩ := ih _ hlen2
          have hv : validAux (fuel + 1) (b :: rest)
              = validAux fuel ((b :: rest).drop (DecodeRune (b :: rest)).2) := by
            simp only [validAux, if_neg hbad]
          have hco : coerceAux (fuel + 1) (b :: rest) =
              (b :: rest).take (DecodeRune (b :: rest)).2 ++
                coerceAux fuel ((b :: rest).drop (DecodeRune (b :: rest)).2) := by
            simp only [coerceAux, hb, if_false, if_neg hbad]
          have hsplit : ((b :: rest).take (DecodeRune (b :: rest)).2).length +
              ((b :: rest).drop (DecodeRune (b :: rest)).2).length = (b :: rest).length := by
            rw [← List.length_append, List.take_append_drop]
          rw [hv, hco]
          refine ⟨?_, fun h => ?_, fun h => ?_⟩
          · rw [List.length_append]; omega
          · rw [i2 h, List.take_append_drop]
          · have := i3 h
            rw [List.length_append]; omega

theorem coerceUTF8_eq_iff (src : List Byte) :
    coerceUTF8 src = src ↔ ValidString src = true := by
  obtain ⟨-, i2, i3⟩ := coerceAux_facts src.length src (Nat.le_refl _)
  constructor
  · intro h
    by_cases hv : validAux src.length src = true
    · exact hv
    · have hf : validAux src.length src = false := by
        cases hx : validAux src.length src
        · rfl
        · exact absurd hx hv
      have := i3 hf
      have h2 : (coerceAux src.length src).length = src.length := by
        have := congrArg List.length h
        simpa [coerceUTF8] using this
      omega
  · intro h
    exact i2 h

theorem unquote_appendString (rel : EncoderRelease) (src tail : List Byte) :
    unquote (appendBody rel src.length src ++ 0x22 :: tail).length
        (appendBody rel src.length src ++ 0x22 :: tail) = some (coerceUTF8 src, tail) := by
  obtain ⟨n, hn, hk⟩ := unquote_appendBody rel src.length src (Nat.le_refl _)
  have e : (appendBody rel src.length src ++ 0x22 :: tail).length
      = ((appendBody rel src.length src).length - n + tail.length) + n + 1 := by
    simp only [List.length_append, List.length_cons]
    omega
  rw [e]
  exact hk tail _

theorem skipWS_cons (b : Byte) (l : List Byte) (h : isJSONSpace b = false) :
    skipWS (b :: l) = b :: l := by
  simp [skipWS, h]

theorem appendString_cons (rel : EncoderRelease) (src tail : List Byte) :
    appendString rel src ++ tail
      = 0x22 :: (appendBody rel src.length src ++ 0x22 :: tail) := by
  simp [appendString]

theorem appendString_length (rel : EncoderRelease) (src : List Byte) :
    2 ≤ (appendString rel src).length := by
  simp [appendString]

theorem parseValue_string (rel : EncoderRelease) (f : Nat) (src tail : List Byte) :
    parseValue (f + 1) (appendString rel src ++ tail)
      = some (JSON.string (coerceUTF8 src), tail) := by
  rw [appendString_cons]
  simp only [parseValue]
  rw [skipWS_cons _ _ (by decide)]
  simp only [if_true]
  rw [unquote_appendString rel src tail]
  rfl

theorem parseMembers_more (rel : EncoderRelease)
    (value : List Byte → Option (JSON × List Byte)) (fuel : Nat)
    (key vb tail : List Byte) (v : JSON) (hf : 0 < fuel) (hkey : coerceUTF8 key = key)
    (hv : value (vb ++ 0x2C :: tail) = some (v, 0x2C :: tail)) :
    parseMembers value fuel (appendString rel key ++ 0x3A :: (vb ++ 0x2C :: tail))
      = (parseMembers value (fuel - 1) tail).map (fun p => ((key, v) :: p.1, p.2)) := by
  obtain ⟨f, rfl⟩ : ∃ f, fuel = f + 1 := ⟨fuel - 1, by omega⟩
  rw [appendString_cons]
  simp only [parseMembers]
  rw [skipWS_cons _ _ (by decide)]
  simp only [if_true]
  rw [unquote_appendString rel key _, hkey]
  simp only []
  rw [skipWS_cons _ _ (by decide)]
  simp only [if_true, hv]
  rw [skipWS_cons _ _ (by decide)]
  simp

theorem parseMembers_last (rel : EncoderRelease)
    (value : List Byte → Option (JSON × List Byte)) (fuel : Nat)
    (key vb tail : List Byte) (v : JSON) (hf : 0 < fuel) (hkey : coerceUTF8 key = key)
    (hv : value (vb ++ 0x7D :: tail) = some (v, 0x7D :: tail)) :
    parseMembers value fuel (appendString rel key ++ 0x3A :: (vb ++ 0x7D :: tail))
      = some ([(key, v)], tail) := by
  obtain ⟨f, rfl⟩ : ∃ f, fuel = f + 1 := ⟨fuel - 1, by omega⟩
  rw [appendString_cons]
  simp only [parseMembers]
  rw [skipWS_cons _ _ (by decide)]
  simp only [if_true]
  rw [unquote_appendString rel key _, hkey]
  simp only []
  rw [skipWS_cons _ _ (by decide)]
  simp only [if_true, hv]
  rw [skipWS_cons _ _ (by decide)]
  have e : ¬ ((0x7D : Byte) = 0x2C) := by decide
  simp [e]

theorem parseElements_one (value : List Byte → Option (JSON × List Byte)) (f : Nat)
    (input tail : List Byte) (v : JSON) (hv : value input = some (v, 0x5D :: tail)) :
    parseElements value (f + 1) input = some ([v], tail) := by
  simp only [parseElements, hv]
  rw [skipWS_cons _ _ (by decide)]
  have e : ¬ ((0x5D : Byte) = 0x2C) := by decide
  simp [e]

theorem parseValue_object (f : Nat) (q : Byte) (rest : List Byte) (hq : q = 0x22) :
    parseValue (f + 1) (0x7B :: q :: rest)
      = (parseMembers (parseValue f) (rest.length + 1) (q :: rest)).map
          (fun p => (JSON.object p.1, p.2)) := by
  subst hq
  simp only [parseValue]
  have e1 : ¬ ((0x7B : Byte) = 0x22) := by decide
  have e2 : ¬ ((0x7B : Byte) = 0x5B) := by decide
  have e3 : ¬ ((0x22 : Byte) = 0x7D) := by decide
  rw [skipWS_cons _ _ (by decide)]
  simp only [e1, e2, if_false, if_true]
  rw [skipWS_cons _ _ (by decide)]
  simp [e3]

theorem parseValue_array (f : Nat) (q : Byte) (rest : List Byte) (hq : q = 0x7B) :
    parseValue (f + 1) (0x5B :: q :: rest)
      = (parseElements (parseValue f) (rest.length + 1) (q :: rest)).map
          (fun p => (JSON.array p.1, p.2)) := by
  subst hq
  simp only [parseValue]
  have e1 : ¬ ((0x5B : Byte) = 0x22) := by decide
  have e3 : ¬ ((0x7B : Byte) = 0x5D) := by decide
  rw [skipWS_cons _ _ (by decide)]
  simp only [e1, if_false, if_true]
  rw [skipWS_cons _ _ (by decide)]
  simp [e3]

theorem parseValue_object_key (rel : EncoderRelease) (f : Nat) (key rest : List Byte) :
    parseValue (f + 1) (0x7B :: (appendString rel key ++ rest))
      = (parseMembers (parseValue f) (appendString rel key ++ rest).length
          (appendString rel key ++ rest)).map (fun p => (JSON.object p.1, p.2)) := by
  rw [appendString_cons, parseValue_object f _ _ rfl]
  simp

theorem keys_plain (rel : EncoderRelease) :
    bytes "\x7b\"type\":" = 0x7B :: (appendString rel (bytes "type") ++ [0x3A]) ∧
    bytes ",\"text\":" = 0x2C :: (appendString rel (bytes "text") ++ [0x3A]) ∧
    bytes "\x7b\"blocks\":[" = 0x7B :: (appendString rel (bytes "blocks") ++ [0x3A, 0x5B]) ∧
    coerceUTF8 (bytes "type") = bytes "type" ∧
    coerceUTF8 (bytes "text") = bytes "text" ∧
    coerceUTF8 (bytes "blocks") = bytes "blocks" ∧
    coerceUTF8 (bytes "section") = bytes "section" ∧
    coerceUTF8 (bytes "mrkdwn") = bytes "mrkdwn" := by
  refine ⟨?_, ?_, ?_, by decide, by decide, by decide, by decide, by decide⟩ <;> rfl

theorem marshalTextBlockObject_eq (rel : EncoderRelease) (t : TextBlockObject)
    (tail : List Byte) :
    marshalTextBlockObject rel t ++ tail =
      0x7B :: (appendString rel (bytes "type") ++ 0x3A :: (appendString rel t.Type_ ++ 0x2C ::
        (appendString rel (bytes "text") ++ 0x3A ::
          (appendString rel t.Text ++ 0x7D :: tail)))) := by
  have e3 : bytes "\x7d" = [0x7D] := by decide
  simp only [marshalTextBlockObject, (keys_plain rel).1, (keys_plain rel).2.1, e3,
    List.append_assoc, List.cons_append, List.nil_append]

theorem parseValue_textBlock (rel : EncoderRelease) (f : Nat) (t : TextBlockObject)
    (tail : List Byte) :
    parseValue (f + 2) (marshalTextBlockObject rel t ++ tail)
      = some (JSON.object [(bytes "type", JSON.string (coerceUTF8 t.Type_)),
          (bytes "text", JSON.string (coerceUTF8 t.Text))], tail) := by
  rw [marshalTextBlockObject_eq, parseValue_object_key,
    parseMembers_more rel _ _ (bytes "type") (appendString rel t.Type_) _
      (JSON.string (coerceUTF8 t.Type_))
      (by
        have := appendString_length rel (bytes "type")
        simp only [List.length_append]; omega)
      (keys_plain rel).2.2.2.1 (parseValue_string rel f _ _),
    parseMembers_last rel _ _ (bytes "text") (appendString rel t.Text) _
      (JSON.string (coerceUTF8 t.Text))
      (by
        have := appendString_length rel (bytes "text")
        simp only [List.length_append, List.length_cons]; omega)
      (keys_plain rel).2.2.2.2.1 (parseValue_string rel f _ _)]
  rfl

theorem marshalSectionBlock_eq (rel : EncoderRelease) (ty : List Byte) (t : TextBlockObject)
    (tail : List Byte) :
    marshalSectionBlock rel { Type_ := ty, Text := some t } ++ tail =
      0x7B :: (appendString rel (bytes "type") ++ 0x3A :: (appendString rel ty ++ 0x2C ::
        (appendString rel (bytes "text") ++ 0x3A ::
          (marshalTextBlockObject rel t ++ 0x7D :: tail)))) := by
  have e3 : bytes "\x7d" = [0x7D] := by decide
  simp only [marshalSectionBlock, (keys_plain rel).1, (keys_plain rel).2.1, e3,
    List.append_assoc, List.cons_append, List.nil_append]

theorem parseValue_sectionBlock (rel : EncoderRelease) (f : Nat) (ty : List Byte)
    (t : TextBlockObject) (tail : List Byte) :
    parseValue (f + 3) (marshalSectionBlock rel { Type_ := ty, Text := some t } ++ tail)
      = some (JSON.object [(bytes "type", JSON.string (coerceUTF8 ty)),
          (bytes "text", JSON.object [(bytes "type", JSON.string (coerceUTF8 t.Type_)),
            (bytes "text", JSON.string (coerceUTF8 t.Text))])], tail) := by
  rw [marshalSectionBlock_eq, parseValue_object_key,
    parseMembers_more rel _ _ (bytes "type") (appendString rel ty) _
      (JSON.string (coerceUTF8 ty))
      (by
        have := appendString_length rel (bytes "type")
        simp only [List.length_append]; omega)
      (keys_plain rel).2.2.2.1 (parseValue_string rel (f + 1) _ _),
    parseMembers_last rel _ _ (bytes "text") (marshalTextBlockObject rel t) _ _
      (by
        have := appendString_length rel (bytes "text")
        simp only [List.length_append, List.length_cons]; omega)
      (keys_plain rel).2.2.2.2.1 (parseValue_textBlock rel f t _)]
  rfl

theorem Marshal_eq (rel : EncoderRelease) (ty : List Byte) (t : TextBlockObject) :
    (Marshal rel [{ Type_ := ty, Text := some t }]).1 =
      0x7B :: (appendString rel (bytes "blocks") ++ 0x3A ::
        ((0x5B :: (marshalSectionBlock rel { Type_ := ty, Text := some t } ++ [0x5D]))
          ++ 0x7D :: [])) := by
  have e2 : bytes "]\x7d" = [0x5D, 0x7D] := by decide
  simp only [Marshal, marshalItems, (keys_plain rel).2.2.1, e2, List.append_assoc,
    List.cons_append, List.nil_append]

theorem parseValue_blocks (rel : EncoderRelease) (f : Nat) (ty : List Byte)
    (t : TextBlockObject) (tail : List Byte) :
    parseValue (f + 4)
        ((0x5B :: (marshalSectionBlock rel { Type_ := ty, Text := some t } ++ [0x5D])) ++ tail)
      = some (JSON.array [JSON.object [(bytes "type", JSON.string (coerceUTF8 ty)),
          (bytes "text", JSON.object [(bytes "type", JSON.string (coerceUTF8 t.Type_)),
            (bytes "text", JSON.string (coerceUTF8 t.Text))])]], tail) := by
  have hv := parseValue_sectionBlock rel f ty t (0x5D :: tail)
  have e : (0x5B :: (marshalSectionBlock rel { Type_ := ty, Text := some t } ++ [0x5D]))
      ++ tail
      = 0x5B :: (marshalSectionBlock rel { Type_ := ty, Text := some t } ++ 0x5D :: tail) := by
    simp
  rw [e]
  rw [marshalSectionBlock_eq] at hv ⊢
  rw [show f + 4 = (f + 3) + 1 from rfl, parseValue_array (f + 3) _ _ rfl,
    parseElements_one _ _ _ _ _ hv]
  rfl

theorem parseJSON_Marshal (rel : EncoderRelease) (ty : List Byte) (t : TextBlockObject) :
    parseJSON (Marshal rel [{ Type_ := ty, Text := some t }]).1
      = some (JSON.object [(bytes "blocks",
          JSON.array [JSON.object [(bytes "type", JSON.string (coerceUTF8 ty)),
            (bytes "text", JSON.object [(bytes "type", JSON.string (coerceUTF8 t.Type_)),
              (bytes "text", JSON.string (coerceUTF8 t.Text))])]])]) := by
  rw [Marshal_eq]
  have hlen : ∃ f, (0x7B :: (appendString rel (bytes "blocks") ++ 0x3A ::
        ((0x5B :: (marshalSectionBlock rel { Type_ := ty, Text := some t } ++ [0x5D]))
          ++ 0x7D :: []))).length = f + 5 := by
    refine ⟨(appendString rel (bytes "blocks")).length +
      (marshalSectionBlock rel { Type_ := ty, Text := some t }).length, ?_⟩
    simp only [List.length_cons, List.length_append, List.length_nil]
    omega
  obtain ⟨f, hf⟩ := hlen
  simp only [parseJSON]
  rw [hf, parseValue_object_key,
    parseMembers_last rel _ _ (bytes "blocks") _ [] _
      (by
        have := appendString_length rel (bytes "blocks")
        simp only [List.length_append]; omega)
      (keys_plain rel).2.2.2.2.2.1 (parseValue_blocks rel f ty t _)]
  rfl

/-! ## C16 -/

/-- C16 (as the code has it): for every content string and every release of the encoder,
the bytes that `SendResponse` writes, read back as JSON, are an object whose `blocks[0]`
has `type` "section", `text.type` "mrkdwn" and `text.text` equal to the content coerced to
valid UTF-8; that string equals the content if and only if the content is valid UTF-8
(whatever characters it holds: quotes, backslashes, control characters, `<`, `>`, `&`,
markdown). -/
theorem SendResponse_roundtrip (rel : EncoderRelease) (s : slack) (content : List Byte)
    (w : ResponseWriter) :
    ∃ data doc block text,
      (s.SendResponse rel content w).body = w.body ++ data ∧
      parseJSON data = some doc ∧
      (doc.member (bytes "blocks")).bind (JSON.item 0) = some block ∧
      block.member (bytes "type") = some (JSON.string (bytes "section")) ∧
      block.member (bytes "text") = some text ∧
      text.member (bytes "type") = some (JSON.string (bytes "mrkdwn")) ∧
      text.member (bytes "text") = some (JSON.string (coerceUTF8 content)) ∧
      (coerceUTF8 content = content ↔ ValidString content = true) := by
  have hm := parseJSON_Marshal rel MBTSection ⟨bytes "mrkdwn", content⟩
  have hs : coerceUTF8 MBTSection = bytes "section" := by decide
  rw [hs, (keys_plain rel).2.2.2.2.2.2.2] at hm
  refine ⟨_, _, _, _, ?_, hm, rfl, rfl, rfl, rfl, rfl, coerceUTF8_eq_iff content⟩
  simp [slack.SendResponse, Marshal]

/-- C16, the claim as written fails: for the content made of the single byte `0xFF`,
which is not valid UTF-8, the body that `SendResponse` writes holds the three bytes of
U+FFFD between the quotes (under a release that writes the replacement character raw) or
the escape `\ufffd` (under a release that escapes it), and under both it reads back with
`text.text` equal to the three bytes of U+FFFD, not to the content. -/
theorem SendResponse_invalid_byte :
    ((slack.mk acceptAll).SendResponse { shortControl := true, rawReplacement := true }
        [0xFF] { header := [], body := [] }).body
      = bytes "\x7b\"blocks\":[\x7b\"type\":\"section\",\"text\":\x7b\"type\":\"mrkdwn\",\"text\":\""
          ++ [0xEF, 0xBF, 0xBD] ++ bytes "\"\x7d\x7d]\x7d" ∧
    parseJSON ((slack.mk acceptAll).SendResponse
        { shortControl := true, rawReplacement := true }
        [0xFF] { header := [], body := [] }).body
      = some (JSON.object [(bytes "blocks",
          JSON.array [JSON.object [(bytes "type", JSON.string (bytes "section")),
            (bytes "text", JSON.object [(bytes "type", JSON.string (bytes "mrkdwn")),
              (bytes "text", JSON.string [0xEF, 0xBF, 0xBD])])]])]) ∧
    ((slack.mk acceptAll).SendResponse { shortControl := false, rawReplacement := false }
        [0xFF] { header := [], body := [] }).body
      = bytes "\x7b\"blocks\":[\x7b\"type\":\"section\",\"text\":\x7b\"type\":\"mrkdwn\",\"text\":\""
          ++ bytes "\\ufffd" ++ bytes "\"\x7d\x7d]\x7d" ∧
    parseJSON ((slack.mk acceptAll).SendResponse
        { shortControl := false, rawReplacement := false }
        [0xFF] { header := [], body := [] }).body
      = some (JSON.object [(bytes "blocks",
          JSON.array [JSON.object [(bytes "type", JSON.string (bytes "section")),
            (bytes "text", JSON.object [(bytes "type", JSON.string (bytes "mrkdwn")),
              (bytes "text", JSON.string [0xEF, 0xBF, 0xBD])])]])]) ∧
    ([0xEF, 0xBF, 0xBD] : List Byte) ≠ [0xFF] ∧
    ValidString [0xFF] = false :=
  ⟨by rfl, by rfl, by rfl, by rfl, by decide, by decide⟩

end SlackBot
